import Mathlib

/-!
Verification of the OmniPath legacy web service query compiler and
streaming pipeline (`omnipath_server.service._legacy` /
`omnipath_server.server._legacy`).

The Python service is shallowly embedded here: request argument values
(which over HTTP or the Python API are scalars — strings, ints, bools,
None — or flat lists/sets of scalars) are modelled by `PyScalar` and
`PyVal`; the SQLAlchemy expressions built by the service are modelled by
the `SqlExpr` syntax tree.  Helper functions of the external
`pypath_common` library (`to_list`, `first`, `to_set`, the boolean
constants) are modelled from their documented behaviour, on which the
service relies.
-/

/-- Python scalar values: strings, ints, bools and `None`. -/
inductive PyScalar where
  | s (v : String)
  | i (n : Int)
  | b (v : Bool)
  | null
deriving DecidableEq, Repr

/-- Python values as they occur in service arguments: scalars and flat
list/set collections of scalars.  `vset` is kept separate from `vlist`
because the service distinguishes them with `isinstance(val, list)`
checks. -/
inductive PyVal where
  | scal (v : PyScalar)
  | vlist (l : List PyScalar)
  | vset (l : List PyScalar)
deriving DecidableEq, Repr

/-- Shorthand for a Python string value. -/
def pstr (s : String) : PyVal := PyVal.scal (PyScalar.s s)

/-- Shorthand for a Python int value. -/
def pint (n : Int) : PyVal := PyVal.scal (PyScalar.i n)

/-- Shorthand for a Python bool value. -/
def pbool (b : Bool) : PyVal := PyVal.scal (PyScalar.b b)

/-- Shorthand for the Python `None` value. -/
def pnone : PyVal := PyVal.scal PyScalar.null

namespace PyVal

/-- Python truthiness of a value: `None`, `False`, `0`, the empty string
and empty collections are falsy. -/
def truthy : PyVal → Bool
  | scal (.s s) => !(s = "")
  | scal (.i n) => !(n = 0)
  | scal (.b b) => b
  | scal .null => false
  | vlist l => !l.isEmpty
  | vset l => !l.isEmpty

/-- Membership of `pypath_common._const.SIMPLE_TYPES` (str, int, float,
bytes, bool, NoneType): true for scalar values, false for collections. -/
def is_simple : PyVal → Bool
  | scal _ => true
  | _ => false

/-- Membership of `pypath_common._const.LIST_LIKE`: lists and sets. -/
def is_list_like : PyVal → Bool
  | vlist _ => true
  | vset _ => true
  | _ => false

/-- Python `str(val)` for the values the service feeds to `_maybe_bool`;
collections render with brackets and so never look boolean-like. -/
def pystr : PyVal → String
  | scal (.s s) => s
  | scal (.i n) => toString n
  | scal (.b b) => if b then "True" else "False"
  | scal .null => "None"
  | vlist _ => "[...]"
  | vset _ => "\x7b...\x7d"

end PyVal

open PyVal PyScalar

/-- `pypath_common._misc.to_list`: list-likes become lists, `None`
becomes `[]`, any other scalar is wrapped in a singleton list. -/
def to_list : PyVal → List PyScalar
  | scal .null => []
  | scal x => [x]
  | vlist l => l
  | vset l => l

/-- `pypath_common._misc.to_set`: same collection semantics as `to_list`
(the embedding represents Python sets as lists and uses only membership
and emptiness, which do not depend on element order). -/
def to_set (v : PyVal) : List PyScalar :=
  to_list v

/-- `pypath_common._misc.first`: first element of an iterable, `None`
when empty. -/
def firstP : List PyScalar → PyScalar
  | [] => .null
  | x :: _ => x

/-- ASCII lower-casing of a single character (Python `str.lower` on the
ASCII strings handled by the service). -/
def lowerChar (c : Char) : Char :=
  if 'A' ≤ c ∧ c ≤ 'Z' then Char.ofNat (c.toNat + 32) else c

/-- ASCII lower-casing of a string. -/
def lowerStr (s : String) : String :=
  ⟨s.data.map lowerChar⟩

/-- ASCII upper-casing of a single character (Python `str.upper`). -/
def upperChar (c : Char) : Char :=
  if 'a' ≤ c ∧ c ≤ 'z' then Char.ofNat (c.toNat - 32) else c

/-- ASCII upper-casing of a string. -/
def upperStr (s : String) : String :=
  ⟨s.data.map upperChar⟩

/-- Worker for `splitOnCh`. -/
def splitOnChGo (c : Char) : List Char → List Char → List (List Char)
  | [], acc => [acc.reverse]
  | x :: xs, acc =>
    if x = c then acc.reverse :: splitOnChGo c xs [] else splitOnChGo c xs (x :: acc)

/-- Python `str.split(c)` for a single-character separator. -/
def splitOnCh (c : Char) (s : String) : List String :=
  (splitOnChGo c s.data []).map List.asString

/-- Python `c in str` for a single character. -/
def strContains (s : String) (c : Char) : Bool :=
  s.data.any (fun x => x = c)

/-- Python `';'.join(l)`-style joining with a single-character
separator. -/
def joinSep (c : Char) : List String → String
  | [] => ""
  | [x] => x
  | x :: xs => x ++ String.singleton c ++ joinSep c xs

/-- Python `sep.join(l)` for a string separator. -/
def joinSepS (sep : String) : List String → String
  | [] => ""
  | [x] => x
  | x :: xs => x ++ sep ++ joinSepS sep xs

/-- Concatenation of a list of strings. -/
def joinAll : List String → String
  | [] => ""
  | x :: xs => x ++ joinAll xs

/-- Whether a string is a (signed) decimal integer literal
(`pypath_common._misc.is_int`). -/
def isIntStr (s : String) : Bool :=
  match s.data with
  | [] => false
  | '-' :: rest => !rest.isEmpty && rest.all Char.isDigit
  | l => l.all Char.isDigit

/-- Value of a decimal digit list. -/
def digitsVal : List Char → Int → Int
  | [], acc => acc
  | c :: cs, acc => digitsVal cs (acc * 10 + (c.toNat - 48))

/-- Integer value of an integer literal string (used only when
`isIntStr` holds). -/
def strToInt (s : String) : Int :=
  match s.data with
  | '-' :: rest => -(digitsVal rest 0)
  | l => digitsVal l 0

/-- Lexicographic (byte-wise) string comparison, Python `<` on ASCII
strings, as used by `sorted`. -/
def charsLt : List Char → List Char → Bool
  | [], [] => false
  | [], _ :: _ => true
  | _ :: _, [] => false
  | x :: xs, y :: ys => if x = y then charsLt xs ys else decide (x < y)

/-- String `≤` via `charsLt`. -/
def strLe (a b : String) : Bool :=
  !(charsLt b.data a.data)

/-- Insert into a sorted list of strings. -/
def sortedInsert (x : String) : List String → List String
  | [] => [x]
  | y :: ys => if strLe x y then x :: y :: ys else y :: sortedInsert x ys

/-- Python `sorted` on a list of strings (insertion sort; the embedding
only depends on the output being the ordered permutation). -/
def pysorted : List String → List String
  | [] => []
  | x :: xs => sortedInsert x (pysorted xs)

/-- String members of `pypath_common._const.BOOLEAN_VALUES`: the textual
encodings of booleans recognised by the service (`0/1`, `true/false`,
`yes/no`, compared after lower-casing). -/
def BOOLEAN_VALUES : List String :=
  ["0", "1", "true", "false", "yes", "no"]

/-- Members of `BOOLEAN_VALUES` that encode `True`. -/
def BOOLEAN_TRUE : List String :=
  ["1", "true", "yes"]

/-- Members of `BOOLEAN_VALUES` that encode `False`. -/
def BOOLEAN_FALSE : List String :=
  ["0", "false", "no"]

/-- `LegacyService._parse_bool_arg`: normalise the various boolean
encodings to a `Bool` (lists contribute their first element; strings are
lower-cased; digit strings become ints; otherwise Python truthiness). -/
def parse_bool_arg (v : PyVal) : Bool :=
  let v := match v with
    | vlist (x :: _) => scal x
    | vlist [] => vlist []
    | x => x
  match v with
  | scal (.s str) =>
    let str := lowerStr str
    if str.data.all Char.isDigit && !(str = "") then !(strToInt str = 0)
    else if str ∈ BOOLEAN_FALSE then false
    else if str ∈ BOOLEAN_TRUE then true
    else !(str = "")
  | x => x.truthy

/-- `LegacyService._maybe_bool`: if `str(val).lower()` is one of the
recognised boolean encodings, replace the value by the parsed boolean. -/
def maybe_bool (v : PyVal) : PyVal :=
  let bval := lowerStr v.pystr
  if bval ∈ BOOLEAN_VALUES then pbool (parse_bool_arg (pstr bval)) else v

/-- Argument maps: insertion-ordered string-keyed dictionaries, embedded
as association lists (Python dicts iterate in insertion order). -/
abbrev Args := List (String × PyVal)

/-- Dictionary lookup (`args.get(k)` as `Option`): the value of the
first (and, keys being unique, only) entry with the given key. -/
def aget : Args → String → Option PyVal
  | [], _ => none
  | p :: rest, k => if p.1 = k then some p.2 else aget rest k

/-- Dictionary lookup with a default (`args.get(k, d)`). -/
def agetD (args : Args) (k : String) (d : PyVal) : PyVal :=
  (aget args k).getD d

/-- Dictionary assignment `args[k] = v`: replaces the value in place if
the key exists, otherwise appends the new entry (Python dict
semantics). -/
def aset (args : Args) (k : String) (v : PyVal) : Args :=
  if args.any (fun p => p.1 = k) then
    args.map (fun p => if p.1 = k then (k, v) else p)
  else
    args ++ [(k, v)]

/-- `pypath_common._misc.first(_misc.to_list(val))`, i.e.
`LegacyService._ensure_str`. -/
def ensure_str (v : PyVal) : PyVal :=
  scal (firstP (to_list v))

/-- `LegacyService._clean_args`: drop `None`-valued entries, normalise
boolean-encoded values, then set `args['format'] = _ensure_str(format)`
(`self`/`kwargs` never occur in the embedded maps). -/
def clean_args (args : Args) : Args :=
  let args := (args.filter (fun p => !(p.2 = pnone))).map (fun p => (p.1, maybe_bool p.2))
  aset args "format" (ensure_str (agetD args "format" pnone))

/-- `LegacyService._ensure_array`: a singleton list/set is unwrapped to
its element (then re-wrapped by `to_list`, without any further
processing); a string is split on commas; everything else goes through
`to_list`. -/
def ensure_array (v : PyVal) : List PyScalar :=
  if v.is_list_like && (to_list v).length = 1 then
    to_list (scal (firstP (to_list v)))
  else match v with
    | scal (.s str) => (splitOnCh ',' str).map PyScalar.s
    | x => to_list x


/-- Lookup in a string-keyed association list (Python `dict.get`). -/
def lookupL {α : Type} (l : List (String × α)) (k : String) : Option α :=
  (l.find? (fun p => p.1 = k)).map (·.2)

/-- Union of lists with set semantics, keeping first-occurrence order
(models Python `set.update`). -/
def listUnion (a b : List String) : List String :=
  a ++ b.filter (fun x => !(a.contains x))

/-- Semantic column kinds of the schema catalog
(`omnipath_server.schema._legacy`). -/
inductive ColKind where
  | cstr
  | cint
  | cbool
  | carray
  | cjsonb
deriving DecidableEq, Repr

/-- A column declaration: name and semantic kind. -/
structure ColumnDef where
  name : String
  kind : ColKind
deriving DecidableEq, Repr

/-- Columns of the `interactions` table (`schema._legacy.Interactions`). -/
def interactions_columns : List ColumnDef :=
  [⟨"id", .cint⟩, ⟨"source", .cstr⟩, ⟨"target", .cstr⟩,
   ⟨"source_genesymbol", .cstr⟩, ⟨"target_genesymbol", .cstr⟩,
   ⟨"is_directed", .cbool⟩, ⟨"is_stimulation", .cbool⟩,
   ⟨"is_inhibition", .cbool⟩, ⟨"consensus_direction", .cbool⟩,
   ⟨"consensus_stimulation", .cbool⟩, ⟨"consensus_inhibition", .cbool⟩,
   ⟨"sources", .carray⟩, ⟨"references", .cstr⟩, ⟨"omnipath", .cbool⟩,
   ⟨"kinaseextra", .cbool⟩, ⟨"ligrecextra", .cbool⟩,
   ⟨"pathwayextra", .cbool⟩, ⟨"mirnatarget", .cbool⟩,
   ⟨"dorothea", .cbool⟩, ⟨"collectri", .cbool⟩, ⟨"tf_target", .cbool⟩,
   ⟨"lncrna_mrna", .cbool⟩, ⟨"tf_mirna", .cbool⟩,
   ⟨"small_molecule", .cbool⟩, ⟨"dorothea_curated", .cbool⟩,
   ⟨"dorothea_chipseq", .cbool⟩, ⟨"dorothea_tfbs", .cbool⟩,
   ⟨"dorothea_coexp", .cbool⟩, ⟨"dorothea_level", .carray⟩,
   ⟨"type", .cstr⟩, ⟨"curation_effort", .cint⟩,
   ⟨"extra_attrs", .cjsonb⟩, ⟨"evidences", .cjsonb⟩,
   ⟨"ncbi_tax_id_source", .cint⟩, ⟨"entity_type_source", .cstr⟩,
   ⟨"ncbi_tax_id_target", .cint⟩, ⟨"entity_type_target", .cstr⟩]

/-- Columns of the `enzsub` table (`schema._legacy.Enzsub`). -/
def enzsub_columns : List ColumnDef :=
  [⟨"id", .cint⟩, ⟨"enzyme", .cstr⟩, ⟨"enzyme_genesymbol", .cstr⟩,
   ⟨"substrate", .cstr⟩, ⟨"substrate_genesymbol", .cstr⟩,
   ⟨"isoforms", .cstr⟩, ⟨"residue_type", .cstr⟩,
   ⟨"residue_offset", .cint⟩, ⟨"modification", .cstr⟩,
   ⟨"sources", .carray⟩, ⟨"references", .cstr⟩,
   ⟨"curation_effort", .cint⟩, ⟨"ncbi_tax_id", .cint⟩]

/-- Columns of the `complexes` table (`schema._legacy.Complexes`). -/
def complexes_columns : List ColumnDef :=
  [⟨"id", .cint⟩, ⟨"name", .cstr⟩, ⟨"components", .carray⟩,
   ⟨"components_genesymbols", .carray⟩, ⟨"stoichiometry", .cstr⟩,
   ⟨"sources", .carray⟩, ⟨"references", .cstr⟩, ⟨"identifiers", .cstr⟩]

/-- Columns of the `annotations` table (`schema._legacy.Annotations`). -/
def annotations_columns : List ColumnDef :=
  [⟨"id", .cint⟩, ⟨"uniprot", .cstr⟩, ⟨"genesymbol", .cstr⟩,
   ⟨"entity_type", .cstr⟩, ⟨"source", .cstr⟩, ⟨"label", .cstr⟩,
   ⟨"value", .cstr⟩, ⟨"record_id", .cint⟩]

/-- Columns of the `intercell` table (`schema._legacy.Intercell`). -/
def intercell_columns : List ColumnDef :=
  [⟨"id", .cint⟩, ⟨"category", .cstr⟩, ⟨"parent", .cstr⟩,
   ⟨"database", .cstr⟩, ⟨"scope", .cstr⟩, ⟨"aspect", .cstr⟩,
   ⟨"source", .cstr⟩, ⟨"uniprot", .cstr⟩, ⟨"genesymbol", .cstr⟩,
   ⟨"entity_type", .cstr⟩, ⟨"consensus_score", .cint⟩,
   ⟨"transmitter", .cbool⟩, ⟨"receiver", .cbool⟩, ⟨"secreted", .cbool⟩,
   ⟨"plasma_membrane_transmembrane", .cbool⟩,
   ⟨"plasma_membrane_peripheral", .cbool⟩]

/-- `LegacyService._columns`: the schema columns of a query type. -/
def columns_of : String → List ColumnDef
  | "interactions" => interactions_columns
  | "enzsub" => enzsub_columns
  | "complexes" => complexes_columns
  | "annotations" => annotations_columns
  | "intercell" => intercell_columns
  | _ => []

/-- `columns[name]` lookup; the fallback is never reached for the
embedded parameter maps, whose column names all exist in the schema. -/
def colLookup (cols : List ColumnDef) (name : String) : ColumnDef :=
  ((cols.find? (fun c => c.name = name)).getD ⟨name, .cstr⟩)

/-- `LegacyService._isarray`: whether a column holds array data. -/
def _isarray (col : ColumnDef) : Bool :=
  col.kind = .carray

/-- Values in compiled SQL comparisons: a plain (bound) Python value, a
value wrapped as `any_(array(v))`, or a reference to another column. -/
inductive SqlVal where
  | plain (v : PyVal)
  | anyArray (v : PyVal)
  | colRef (name : String)
deriving DecidableEq, Repr

/-- Compiled SQL boolean expressions: a column/operator/value comparison
(`col.op(op)(val)`), a negated column (`not_(col)`), a bare boolean
column, and n-ary conjunction (`and_`) / disjunction (`or_`). -/
inductive SqlExpr where
  | colOp (col : String) (op : String) (val : SqlVal)
  | notCol (col : String)
  | boolCol (col : String)
  | andE (es : List SqlExpr)
  | orE (es : List SqlExpr)

/-- `LegacyService._where_op`: infer the SQL operator for a column/value
pair.  A pre-set operator is returned unchanged; otherwise, for array
columns a scalar value compiles to `in`/`any_(array(val))` (array
contains) and a collection to `&&` (array overlap); for other columns
`True` gives `IS`, `False` gives `NOT`, another scalar `=`, and a
collection `=`/`any_(array(val))` (membership). -/
def _where_op (col : ColumnDef) (val : PyVal) (op : Option String) :
    String × SqlVal :=
  match op with
  | some o => (o, SqlVal.plain val)
  | none =>
    if _isarray col then
      if val.is_simple then ("in", SqlVal.anyArray val)
      else ("&&", SqlVal.plain val)
    else if val = pbool true then ("IS", SqlVal.plain val)
    else if val = pbool false then ("NOT", SqlVal.plain val)
    else if val.is_simple then ("=", SqlVal.plain val)
    else ("=", SqlVal.anyArray val)

/-- The string-conversion step of `LegacyService._parse_arg`: integer
literals are parsed to ints, comma-joined strings are split into lists
(float literals do not occur among the served arguments and are not
modelled). -/
def parse_arg_str_step : PyVal → PyVal
  | scal (.s str) =>
    if isIntStr str then pint (strToInt str)
    else if strContains str ',' then vlist ((splitOnCh ',' str).map PyScalar.s)
    else pstr str
  | x => x

/-- `LegacyService._parse_arg` with no requested type: `None` becomes
`[]`, strings are parsed, everything else passes through. -/
def parse_arg : PyVal → PyVal
  | scal .null => vlist []
  | x => parse_arg_str_step x

/-- `LegacyService._parse_arg` with `typ = int` (the `limit` path): a
nonempty list contributes its first element, an empty list becomes
`None`, then strings are parsed. -/
def parse_arg_int : PyVal → PyVal
  | vlist (x :: _) => parse_arg_str_step (scal x)
  | vlist [] => pnone
  | scal .null => vlist []
  | x => parse_arg_str_step x

/-- `query_param[qt]['where']`: WHERE argument → column(s) map
(multi-column targets are colon-joined, as in the source). -/
def where_map : String → List (String × String)
  | "interactions" =>
    [("resources", "sources"), ("types", "type"), ("directed", "is_directed"),
     ("organisms", "ncbi_tax_id_source:ncbi_tax_id_target"),
     ("entity_types", "entity_type_source:entity_type_target"),
     ("dorothea_levels", "dorothea_level")]
  | "complexes" => [("resources", "sources"), ("proteins", "components")]
  | "enzsub" =>
    [("organisms", "ncbi_tax_id"), ("types", "modification"),
     ("resources", "sources"), ("residues", "residue_type")]
  | "intercell" =>
    [("resources", "database"), ("entity_types", "entity_type"),
     ("proteins", "uniprot:genesymbol"), ("aspect", "aspect"),
     ("scope", "scope"), ("source", "source"), ("categories", "category"),
     ("parent", "parent"), ("transmitter", "transmitter"),
     ("receiver", "receiver"), ("secreted", "secreted"),
     ("plasma_membrane_transmembrane", "plasma_membrane_transmembrane"),
     ("plasma_membrane_peripheral", "plasma_membrane_peripheral")]
  | "annotations" =>
    [("resources", "source"), ("entity_types", "entity_type"),
     ("proteins", "uniprot:genesymbol")]
  | _ => []

/-- `query_param[qt]['where_synonyms']` (only `intercell` declares
any). -/
def where_synonyms : String → List (String × String)
  | "intercell" =>
    [("trans", "transmitter"), ("rec", "receiver"), ("sec", "secreted"),
     ("pmtm", "plasma_membrane_transmembrane"),
     ("pmp", "plasma_membrane_peripheral")]
  | _ => []

/-- `query_param[qt]['array_args']`. -/
def array_args_of : String → List String
  | "interactions" =>
    ["sources", "targets", "partners", "resources", "types", "organisms",
     "datasets", "dorothea_levels", "dorothea_methods", "entity_types",
     "fields"]
  | "complexes" => ["resources", "proteins"]
  | "enzsub" =>
    ["enzymes", "substrates", "partners", "resources", "organisms",
     "types", "residues"]
  | "intercell" => ["proteins", "resources", "entity_types"]
  | "annotations" => ["proteins", "resources", "entity_types"]
  | _ => []

/-- `LegacyService._array_args`: coerce declared array arguments with
`_ensure_array`. -/
def array_args (args : Args) (qt : String) : Args :=
  args.map (fun p =>
    if (array_args_of qt).contains p.1 then (p.1, vlist (ensure_array p.2)) else p)

/-- `query_param[qt]['select']` synonym expansion for requested
fields. -/
def select_synonyms : String → List (String × List String)
  | "interactions" =>
    [("genesymbol", ["source_genesymbol", "target_genesymbol"]),
     ("organism", ["ncbi_tax_id_source", "ncbi_tax_id_target"]),
     ("entity_type", ["entity_type_source", "entity_type_target"]),
     ("extra_attrs", ["extra_attrs"]), ("evidences", ["evidences"])]
  | "enzsub" => [("genesymbol", ["enzyme_genesymbol", "substrate_genesymbol"])]
  | _ => []

/-- The mutable state of the class-level `query_param` configuration:
the `select_default` sets of the two query types that declare one
(Python sets, embedded as lists used up to membership). -/
structure SelectState where
  interactions : List String
  enzsub : List String
deriving DecidableEq, Repr

/-- The `select_default` sets as written in the source. -/
def select_default_init : SelectState :=
  ⟨["source", "target", "is_directed", "is_stimulation", "is_inhibition",
    "consensus_direction", "consensus_stimulation", "consensus_inhibition"],
   ["enzyme", "substrate", "residue_type", "residue_offset", "modification"]⟩

/-- `query_param[qt].get('select_default')`. -/
def get_select_default (st : SelectState) : String → Option (List String)
  | "interactions" => some st.interactions
  | "enzsub" => some st.enzsub
  | _ => none

/-- Store an updated `select_default` set back into the configuration
(this models the in-place `set.update` aliasing of the source, where
`cols` is the very object stored in `query_param`). -/
def set_select_default (st : SelectState) (qt : String) (l : List String) :
    SelectState :=
  if qt = "interactions" then { st with interactions := l }
  else if qt = "enzsub" then { st with enzsub := l }
  else st

/-- `LegacyService._select`: start from the (aliased!) `select_default`
set, expand requested `fields` through the synonym map, update the set
in place, and select the matching schema columns, never `id`.  A string
`fields` value is iterated character-wise by Python, which the embedding
mirrors; non-iterable scalars would raise and are not reachable through
the service entry points. -/
def _select (st : SelectState) (args : Args) (qt : String) :
    List String × SelectState :=
  let synonyms := select_synonyms qt
  let cols0 := (get_select_default st qt).getD []
  let fieldIter : List PyScalar :=
    match parse_arg (agetD args "fields" pnone) with
    | vlist l => l
    | vset l => l
    | scal (.s str) => str.data.map (fun c => .s (String.singleton c))
    | _ => []
  let query_fields := fieldIter.foldl (fun acc f =>
      match f with
      | .s fs => listUnion acc ((lookupL synonyms fs).getD [fs])
      | _ => acc) []
  let colsNew := listUnion cols0 query_fields
  let st' := set_select_default st qt colsNew
  let selected :=
    ((columns_of qt).filter
      (fun c => !(c.name = "id") && (colsNew.isEmpty || colsNew.contains c.name))).map
      (·.name)
  (selected, st')

/-- A compiled query: ordered selected column names, the list of WHERE
clauses (each `query.filter(...)` call appends one), and the LIMIT
value. -/
structure Query where
  select : List String
  whereClauses : List SqlExpr
  limit : Option PyVal

/-- First character of an operator string, as Python `op[0]` (operator
strings are never empty where this is used). -/
def firstCharStr (s : String) : String :=
  match s.data with
  | [] => ""
  | c :: _ => String.singleton c

/-- The tail of the per-argument column loop of `LegacyService._where`:
after the first column, the loop calls `_where_op` with `op[0]` — the
first character of the previously returned operator — which `_where_op`
passes through unchanged together with the already wrapped value. -/
def where_cols_rest (cols : List ColumnDef) (op : String) (v : SqlVal) :
    List SqlExpr :=
  match cols with
  | [] => []
  | c :: rest =>
    let o := firstCharStr op
    let e := if o = "NOT" then SqlExpr.notCol c.name else SqlExpr.colOp c.name o v
    e :: where_cols_rest rest o v

/-- One WHERE argument compiled by `LegacyService._where`: the mapped
columns (colon-separated) are each compared to the value, OR-joined. -/
def where_arg_expr (columns : List ColumnDef) (colsStr : String) (value : PyVal) :
    SqlExpr :=
  match (splitOnCh ':' colsStr).map (colLookup columns) with
  | [] => SqlExpr.orE []
  | c :: rest =>
    let p := _where_op c value none
    let e := if p.1 = "NOT" then SqlExpr.notCol c.name
             else SqlExpr.colOp c.name p.1 p.2
    SqlExpr.orE (e :: where_cols_rest rest p.1 p.2)

/-- `LegacyService._where`: for each argument with a `where` mapping
(after synonym resolution), parse the value and append the OR-joined
per-column comparison as one filter clause. -/
def _where (args : Args) (qt : String) : List SqlExpr :=
  args.filterMap (fun p =>
    let k := (lookupL (where_synonyms qt) p.1).getD p.1
    match lookupL (where_map qt) k with
    | none => none
    | some colsStr =>
      some (where_arg_expr (columns_of qt) colsStr (parse_arg p.2)))

/-- `LegacyService._limit`: append the LIMIT clause when requested. -/
def _limit (q : Query) (args : Args) : Query :=
  match aget args "limit" with
  | some v => { q with limit := some (parse_arg_int v) }
  | none => q

/-- Vocabulary entry of `args_reference`: `none` models a `None` (open)
reference, `some vocab` a closed vocabulary. -/
abbrev RefVocab := Option (List PyScalar)

/-- Scalars of `_const.BOOLEAN_VALUES`, for boolean-valued arguments. -/
def boolVocab : RefVocab :=
  some (BOOLEAN_VALUES.map PyScalar.s)

/-- The `FORMATS` literal values. -/
def formatsVocab : RefVocab :=
  some (["raw", "json", "tab", "text", "tsv", "table", "query"].map PyScalar.s)

/-- The license tier argument values. -/
def licenseVocab : RefVocab :=
  some (["ignore", "academic", "non_profit", "nonprofit", "for_profit",
         "forprofit", "commercial"].map PyScalar.s)

/-- The `ORGANISMS` literal values (ints). -/
def organismsVocab : RefVocab :=
  some [.i 9606, .i 10090, .i 10116]

/-- The `ENTITY_TYPES` literal values. -/
def entityTypesVocab : RefVocab :=
  some (["complex", "mirna", "protein", "small_molecule", "lncrna", "drug",
         "metabolite", "lipid"].map PyScalar.s)

/-- The two-sided partner group operator values. -/
def andOrVocab : RefVocab :=
  some (["AND", "OR", "and", "or"].map PyScalar.s)

/-- `LegacyService.args_reference['interactions']`. -/
def args_reference_interactions : List (String × RefVocab) :=
  [("header", none), ("format", formatsVocab), ("license", licenseVocab),
   ("password", none), ("limit", none),
   ("datasets", some (["omnipath", "dorothea", "collectri", "tf_target",
     "tf_mirna", "lncrna_mrna", "kinaseextra", "ligrecextra", "pathwayextra",
     "mirnatarget", "small_molecule"].map PyScalar.s)),
   ("types", some (["post_translational", "transcriptional",
     "post_transcriptional", "mirna_transcriptional",
     "lncrna_post_transcriptional", "small_molecule_protein"].map PyScalar.s)),
   ("sources", none), ("resources", none), ("databases", none),
   ("targets", none), ("partners", none), ("genesymbols", boolVocab),
   ("evidences", none), ("extra_attrs", none),
   ("fields", some (["entity_type", "references", "sources", "dorothea_level",
     "dorothea_curated", "dorothea_chipseq", "dorothea_tfbs", "dorothea_coexp",
     "type", "ncbi_tax_id", "databases", "resources", "organism",
     "curation_effort", "datasets", "extra_attrs", "evidences"].map PyScalar.s)),
   ("dorothea_levels", some (["A", "B", "C", "D", "E"].map PyScalar.s)),
   ("dorothea_methods", some (["curated", "chipseq", "coexp", "tfbs",
     "dorothea_curated", "dorothea_chipseq", "dorothea_coexp",
     "dorothea_tfbs"].map PyScalar.s)),
   ("organisms", organismsVocab), ("source_target", andOrVocab),
   ("directed", boolVocab), ("signed", boolVocab), ("loops", boolVocab),
   ("entity_types", entityTypesVocab)]

/-- `LegacyService.args_reference['enzsub']`. -/
def args_reference_enzsub : List (String × RefVocab) :=
  [("header", none), ("format", formatsVocab), ("license", licenseVocab),
   ("password", none), ("limit", none), ("enzymes", none),
   ("substrates", none), ("partners", none), ("genesymbols", boolVocab),
   ("organisms", organismsVocab), ("databases", none), ("resources", none),
   ("residues", none), ("modification", none), ("types", none),
   ("loops", boolVocab),
   ("fields", some (["sources", "references", "ncbi_tax_id", "organism",
     "databases", "resources", "isoforms", "curation_effort"].map PyScalar.s)),
   ("enzyme_substrate", andOrVocab)]

/-- `LegacyService.args_reference['annotations']`. -/
def args_reference_annotations : List (String × RefVocab) :=
  [("header", none), ("format", formatsVocab), ("license", licenseVocab),
   ("password", none), ("limit", none), ("databases", none),
   ("resources", none), ("proteins", none), ("fields", none),
   ("genesymbols", boolVocab), ("entity_types", entityTypesVocab)]

/-- `LegacyService.args_reference['intercell']`. -/
def args_reference_intercell : List (String × RefVocab) :=
  [("header", none), ("format", formatsVocab), ("license", licenseVocab),
   ("password", none), ("limit", none),
   ("scope", some (["specific", "generic"].map PyScalar.s)),
   ("aspect", some (["functional", "locational"].map PyScalar.s)),
   ("source", some (["resource_specific", "composite"].map PyScalar.s)),
   ("categories", none), ("databases", none), ("resources", none),
   ("parent", none), ("proteins", none), ("fields", none),
   ("entity_types", entityTypesVocab), ("transmitter", boolVocab),
   ("receiver", boolVocab), ("trans", boolVocab), ("rec", boolVocab),
   ("secreted", boolVocab), ("plasma_membrane_peripheral", boolVocab),
   ("plasma_membrane_transmembrane", boolVocab), ("sec", boolVocab),
   ("pmp", boolVocab), ("pmtm", boolVocab),
   ("causality", some (["transmitter", "trans", "receiver", "rec",
     "both"].map PyScalar.s)),
   ("topology", some (["secreted", "sec", "plasma_membrane_peripheral", "pmp",
     "plasma_membrane_transmembrane", "pmtm"].map PyScalar.s))]

/-- `LegacyService.args_reference['complexes']`. -/
def args_reference_complexes : List (String × RefVocab) :=
  [("header", none), ("format", formatsVocab), ("license", licenseVocab),
   ("password", none), ("limit", none), ("databases", none),
   ("resources", none), ("proteins", none), ("fields", none)]

/-- `LegacyService.args_reference['resources']` (used for the
`databases` query type). -/
def args_reference_resources : List (String × RefVocab) :=
  [("license", licenseVocab),
   ("format", some [.s "json"]),
   ("datasets", some (["interactions", "interaction", "network", "enzsub",
     "enz_sub", "enzyme-substrate", "annotations", "annotation", "annot",
     "intercell", "complex", "complexes"].map PyScalar.s)),
   ("subtypes", none)]

/-- `LegacyService.args_reference`, restricted to the query types the
request pipeline serves. -/
def args_reference : String → Option (List (String × RefVocab))
  | "interactions" => some args_reference_interactions
  | "enzsub" => some args_reference_enzsub
  | "annotations" => some args_reference_annotations
  | "intercell" => some args_reference_intercell
  | "complexes" => some args_reference_complexes
  | "resources" => some args_reference_resources
  | _ => none

/-- The reference chosen by `LegacyService._check_args`: the `resources`
reference for the `databases` query type, otherwise the query type's
own. -/
def check_args_ref (qt : String) : Option (List (String × RefVocab)) :=
  if qt = "databases" then args_reference "resources" else args_reference qt

/-- The `unknowns = val - set(ref[arg])` step of `_check_args`: the
checked scalars outside the vocabulary. -/
def unknowns_of (vocab : List PyScalar) (l : List PyScalar) : List PyScalar :=
  l.filter (fun u => !(vocab.contains u))

/-- The per-value problem line of `_check_args`. -/
def unknown_values_msg (k : String) (unknowns : List PyScalar) : String :=
  " ==> Unknown values for argument `" ++ k ++ "`: `"
    ++ joinSepS ", " (unknowns.map (fun u => (scal u).pystr)) ++ "`"

/-- The check `LegacyService._check_args` performs on one argument
entry: unknown names are reported; for a known name with a closed
vocabulary and a truthy value, the value — reduced to its first element
when it is a list, and stringified when it is a bool — is converted to a
set and its elements are compared against the vocabulary. -/
def check_entry (ref : List (String × RefVocab)) (k : String) (v : PyVal) :
    Option String :=
  match lookupL ref k with
  | none => some (" ==> Unknown argument: `" ++ k ++ "`")
  | some none => none
  | some (some vocab) =>
    if vocab.isEmpty then none
    else if !v.truthy then none
    else
      let v1 : PyVal := match v with
        | vlist (x :: _) => scal x
        | vlist [] => vlist []
        | x => x
      let v2 : PyVal := match v1 with
        | scal (.b bb) => pstr (lowerStr (if bb then "True" else "False"))
        | x => x
      let unknowns := unknowns_of vocab (to_set v2)
      if unknowns.isEmpty then none
      else some (unknown_values_msg k unknowns)

/-- `LegacyService._check_args`: collect the per-argument problems, set
`args['header']`, and return the formatted error message when any
problem was found (`none` means the arguments passed the check). -/
def _check_args (args : Args) (qt : String) : Option String × Args :=
  let ref := (check_args_ref qt).getD []
  let result := args.filterMap (fun p => check_entry ref p.1 p.2)
  let args := aset args "header" (pbool (parse_bool_arg (agetD args "header" (pbool true))))
  if result.isEmpty then (none, args)
  else
    (some ("Something is not entirely good:\n" ++ joinSepS "\n" result
      ++ "\n\nPlease check the examples at\nhttps://github.com/saezlab/pypath\n"
      ++ "and\nhttps://github.com/saezlab/DoRothEA\n"
      ++ "If you still experiencing issues contact us at\n"
      ++ "https://github.com/saezlab/pypath/issues"), args)

/-- `LegacyService._query`: on a failed argument check no query is
built and the error message is returned; otherwise `databases` is copied
to `resources`, the SELECT, WHERE, extra-WHERE (AND-joined) and LIMIT
stages run in order. -/
def _query (st : SelectState) (args : Args) (qt : String)
    (extra_where : List (Option SqlExpr)) :
    (Option Query × Option String) × SelectState :=
  match _check_args args qt with
  | (some msg, _) => ((none, some msg), st)
  | (none, args) =>
    let args := match aget args "databases" with
      | some v => aset args "resources" v
      | none => args
    let p := _select st args qt
    let wh := _where args qt
    let extra := extra_where.filterMap id
    let wh := wh ++ (if extra.isEmpty then [] else [SqlExpr.andE extra])
    ((some (_limit { select := p.1, whereClauses := wh, limit := none } args), none), p.2)

/-- `query_param[qt]['where_partners']['sides']`. -/
def where_partners_sides : String → List (String × String)
  | "interactions" => [("sources", "source"), ("targets", "target")]
  | "enzsub" => [("enzymes", "enzyme"), ("substrates", "substrate")]
  | _ => []

/-- `query_param[qt]['where_partners']['operator']`: the argument naming
the side-combining operator. -/
def where_partners_op : String → String
  | "interactions" => "source_target"
  | "enzsub" => "enzyme_substrate"
  | _ => ""

/-- `LegacyService._where_partners`: each side falls back to the
`partners` argument (mutating `args`); a supplied side compiles to the
OR of its id and genesymbol column comparisons; two sides are joined
with OR exactly when the operator argument upper-cases to `OR`,
otherwise with AND.  Returns the clause (if any) and the mutated
arguments. -/
def _where_partners (qt : String) (args : Args) : Option SqlExpr × Args :=
  let sides := where_partners_sides qt
  let args := sides.foldl (fun a p =>
      let v := agetD a p.1 pnone
      aset a p.1 (if v.truthy then v else agetD a "partners" pnone)) args
  let partners_where := sides.filterMap (fun p =>
    let v := agetD args p.1 pnone
    if !v.truthy then none
    else
      some (SqlExpr.orE (["", "_genesymbol"].map (fun suf =>
        let col := colLookup (columns_of qt) (p.2 ++ suf)
        let q := _where_op col v none
        SqlExpr.colOp col.name q.1 q.2))))
  match partners_where with
  | [w] => (some w, args)
  | [w1, w2] =>
    let opv := match aget args (where_partners_op qt) with
      | some (scal (.s str)) => upperStr str
      | _ => ""
    (some ((if opv = "OR" then SqlExpr.orE else SqlExpr.andE) [w1, w2]), args)
  | _ => (none, args)

/-- `LegacyService._where_loops`: unless loops are requested, require
the two partner columns to differ. -/
def _where_loops (qt : String) (args : Args) : Option SqlExpr :=
  let sides := where_partners_sides qt
  if !(agetD args "loops" (pbool false)).truthy then
    match sides.map (fun p => colLookup (columns_of qt) p.2) with
    | [c0, c1] => some (SqlExpr.colOp c0.name "!=" (SqlVal.colRef c1.name))
    | _ => none
  else none

/-- One entry of `query_param[qt]['where_bool']`: either a set of
boolean column names (requested values name columns directly) or a
dict mapping requested values to column names. -/
inductive BoolArgSpec where
  | direct (cols : List String)
  | mapped (m : List (String × String))

/-- `query_param[qt]['where_bool']` (only `interactions` declares
any). -/
def where_bool_args : String → List (String × BoolArgSpec)
  | "interactions" =>
    [("datasets", .direct ["omnipath", "kinaseextra", "ligrecextra",
        "pathwayextra", "mirnatarget", "dorothea", "collectri", "tf_target",
        "lncrna_mrna", "tf_mirna", "small_molecule"]),
     ("dorothea_methods", .mapped [("curated", "dorothea_curated"),
        ("chipseq", "dorothea_chipseq"), ("tfbs", "dorothea_tfbs"),
        ("coexp", "dorothea_coexp")]),
     ("signed", .direct ["is_stimulation", "is_inhibition"])]
  | _ => []

/-- String elements of a Python set (non-string members never intersect
the string column names). -/
def strElems (l : List PyScalar) : List String :=
  l.filterMap (fun x => match x with | .s str => some str | _ => none)

/-- `LegacyService._where_bool`: for each boolean flag group, the
requested values (after dict translation) select boolean columns whose
bare OR is appended; the groups are AND-joined.  The intersection is a
Python set; the embedding iterates it in the declared column order. -/
def _where_bool (qt : String) (args : Args) : SqlExpr :=
  SqlExpr.andE ((where_bool_args qt).filterMap (fun p =>
    let argCols := strElems (to_set (agetD args p.1 (vset [])))
    let kept := match p.2 with
      | .direct cols => cols.filter (fun c => argCols.contains c)
      | .mapped m =>
        let translated := argCols.map (fun x => (lookupL m x).getD x)
        (m.map Prod.snd).filter (fun c => translated.contains c)
    if kept.isEmpty then none
    else some (SqlExpr.orE (kept.map SqlExpr.boolCol))))

/-- The named inputs of `LegacyService.interactions` with the signature
defaults. -/
structure InteractionsInput where
  resources : PyVal := pnone
  partners : PyVal := pnone
  sources : PyVal := pnone
  targets : PyVal := pnone
  fields : PyVal := pnone
  limit : PyVal := pnone
  format : PyVal := pnone
  source_target : PyVal := pstr "OR"
  organisms : PyVal := pnone
  datasets : PyVal := pnone
  dorothea_levels : PyVal := pnone
  dorothea_methods : PyVal := pnone
  types : PyVal := pnone
  directed : PyVal := pbool true
  signed : PyVal := pnone
  loops : PyVal := pbool false
  entity_types : PyVal := pnone

/-- The `locals()` argument map of `LegacyService.interactions` after
its two defaulting lines `datasets = datasets if types else datasets or
set(["omnipath"])` and `organisms = organisms or set([9606])` (Python
`a or b` yields `a` when truthy, else `b`). -/
def interactions_locals (inp : InteractionsInput) : Args :=
  let datasets := if inp.types.truthy then inp.datasets
    else if inp.datasets.truthy then inp.datasets else vset [.s "omnipath"]
  let organisms := if inp.organisms.truthy then inp.organisms else vset [.i 9606]
  [("resources", inp.resources), ("partners", inp.partners),
   ("sources", inp.sources), ("targets", inp.targets),
   ("fields", inp.fields), ("limit", inp.limit), ("format", inp.format),
   ("source_target", inp.source_target), ("organisms", organisms),
   ("datasets", datasets), ("dorothea_levels", inp.dorothea_levels),
   ("dorothea_methods", inp.dorothea_methods), ("types", inp.types),
   ("directed", inp.directed), ("signed", inp.signed),
   ("loops", inp.loops), ("entity_types", inp.entity_types)]

/-- The argument map of an interactions request after the
`_clean_args`/`_array_args` steps of `LegacyService.interactions`. -/
def interactions_args (inp : InteractionsInput) : Args :=
  array_args (clean_args (interactions_locals inp)) "interactions"

/-- The full interactions pipeline
(`interactions` → `_request` → `_query`): partner, boolean-flag and
loop clauses are computed on the normalised arguments and passed as
extra WHERE, then `_request` cleans and coerces again and `_query`
compiles. -/
def interactions_pipeline (st : SelectState) (inp : InteractionsInput) :
    (Option Query × Option String) × SelectState :=
  let args := interactions_args inp
  let pw := _where_partners "interactions" args
  let args := pw.2
  let wloops := _where_loops "interactions" args
  let wbool := _where_bool "interactions" args
  let args := array_args (clean_args args) "interactions"
  _query st args "interactions" [pw.1, some wbool, wloops]

/-- The named inputs of `LegacyService.enzsub` with the signature
defaults. -/
structure EnzsubInput where
  resources : PyVal := pnone
  partners : PyVal := pnone
  enzymes : PyVal := pnone
  substrates : PyVal := pnone
  types : PyVal := pnone
  residues : PyVal := pnone
  fields : PyVal := pnone
  limit : PyVal := pnone
  format : PyVal := pnone
  enzyme_substrate : PyVal := pstr "OR"
  organisms : PyVal := pnone
  loops : PyVal := pbool false

/-- The `locals()` argument map of `LegacyService.enzsub` after its
defaulting line `organisms = organisms or set([9606])`. -/
def enzsub_locals (inp : EnzsubInput) : Args :=
  let organisms := if inp.organisms.truthy then inp.organisms else vset [.i 9606]
  [("resources", inp.resources), ("partners", inp.partners),
   ("enzymes", inp.enzymes), ("substrates", inp.substrates),
   ("types", inp.types), ("residues", inp.residues),
   ("fields", inp.fields), ("limit", inp.limit), ("format", inp.format),
   ("enzyme_substrate", inp.enzyme_substrate), ("organisms", organisms),
   ("loops", inp.loops)]

/-- The argument map of an enzsub request after the
`_clean_args`/`_array_args` steps of `LegacyService.enzsub`. -/
def enzsub_args (inp : EnzsubInput) : Args :=
  array_args (clean_args (enzsub_locals inp)) "enzsub"

/-- The full enzyme-substrate pipeline
(`enzsub` → `_request` → `_query`). -/
def enzsub_pipeline (st : SelectState) (inp : EnzsubInput) :
    (Option Query × Option String) × SelectState :=
  let args := enzsub_args inp
  let wloops := _where_loops "enzsub" args
  let pw := _where_partners "enzsub" args
  let args := array_args (clean_args pw.2) "enzsub"
  _query st args "enzsub" [pw.1, wloops]

/-- Worker for `with_last`: yields the previous element marked
not-last, then the held-back final element marked last. -/
def with_last_go (prev : PyVal) : List PyVal → List (PyVal × Bool)
  | [] => [(prev, true)]
  | it :: rest => (prev, false) :: with_last_go it rest

/-- `with_last` of `omnipath_server.service._legacy`: iterate with a
one-element lookahead, marking the last element; the end of the stream
is detected with a `None` default, so a stream whose first element is
`None` yields nothing. -/
def with_last (l : List PyVal) : List (PyVal × Bool) :=
  match l with
  | [] => []
  | x :: rest => if x = pnone then [] else with_last_go x rest

/-- The ideal last-element marking (the specified behaviour): every
element in order, paired with `true` exactly on the final element. -/
def markLast {α : Type} : List α → List (α × Bool)
  | [] => []
  | [x] => [(x, true)]
  | x :: y :: rest => (x, false) :: markLast (y :: rest)

/-- The JSON postformat lambda of `legacy_handler`
(`server/_legacy.py`): append `,\n` after every line except the last,
which gets `\n`. -/
def legacy_postformat_json (x : String) (last : Bool) : String :=
  if last then x ++ "\n" else x ++ ",\n"

/-- Underlying string of a row in the JSON path (rows there are
`json.dumps` outputs, i.e. strings). -/
def strOfRow : PyVal → String
  | scal (.s str) => str
  | _ => ""

/-- The JSON response body assembled by `legacy_handler`:
`precontent = ("[\n",)`, the postformatted `with_last` stream, and
`postcontent = ("]",)`, concatenated. -/
def json_response (rows : List String) : String :=
  joinAll (["[\n"] ++
    (with_last (rows.map pstr)).map (fun p => legacy_postformat_json (strOfRow p.1) p.2)
    ++ ["]"])

/-- Square-bracket weight of a character. -/
def charBracketWeight (c : Char) : Int :=
  if c = '[' then 1 else if c = ']' then -1 else 0

/-- Net square-bracket balance of a string. -/
def bracketBal (s : String) : Int :=
  (s.data.map charBracketWeight).sum

/-- The license-resolution oracle: the parts of the external
`pypath` resources controller the filter calls into
(`license(r).enables(license)`, `license(r).name`,
`secondary_resources(r, True)`). -/
structure LicenseOracle where
  enables : String → Bool
  lname : String → String
  secondary : String → List String

/-- The inner `filter_resources` of `LegacyService._filter_by_license`:
keep the enabled resources, then drop composite resources none of whose
secondary (component) resources remain among the row's enabled set. -/
def filter_resources (ctrl : LicenseOracle) (res : List String) : List String :=
  let res1 := res.filter ctrl.enables
  let composite := res1.filter (fun r => ctrl.lname r = "Composite")
  let toRemove := composite.filter
    (fun r => ((ctrl.secondary r).filter (fun x => res1.contains x)).isEmpty)
  res1.filter (fun r => !(toRemove.contains r))

/-- A row as seen by `_filter_by_license` (non-simple path): the
set-typed resource column `set_sources`, the `;`-joined resource
attribution column (`res_col`), and the optional prefix-encoded column
(a `;`-joined string of `resource:value` pairs, or a non-string NaN
which passes through). -/
structure LRow where
  set_sources : List String
  res : String
  pfx : PyVal
deriving DecidableEq, Repr

/-- Substring before the first `:` of a prefix-encoded element
(`pref_res.split(':', maxsplit=1)[0]`). -/
def prefixPart (e : String) : String :=
  (splitOnCh ':' e).headD ""

/-- The per-row transformation of `LegacyService._filter_by_license`:
the attribution column becomes the sorted `;`-join of the kept
resources; when a prefix column is configured, its `;`-separated
elements whose prefix is not among the kept resources are removed (and
the survivors sorted); non-string prefix values (NaN) pass through. -/
def row_transform (ctrl : LicenseOracle) (usePfx : Bool) (r : LRow) : LRow :=
  let kept := filter_resources ctrl r.set_sources
  { r with
    res := joinSep ';' (pysorted kept),
    pfx := if usePfx then
        match r.pfx with
        | scal (.s str) =>
          pstr (joinSep ';' (pysorted
            ((splitOnCh ';' str).filter (fun e => kept.contains (prefixPart e)))))
        | x => x
      else r.pfx }

/-- `LegacyService._filter_by_license` (non-simple path, as used for
interactions and complexes): with the sentinel `ignore` license or an
empty table the input is returned untouched; otherwise every row is
transformed with `row_transform` and rows whose new attribution column
is the empty string are dropped. -/
def _filter_by_license (license : String) (rows : List LRow)
    (ctrl : LicenseOracle) (usePfx : Bool) : List LRow :=
  if license = "ignore" || rows.isEmpty then rows
  else (rows.map (row_transform ctrl usePfx)).filter (fun r => !(r.res = ""))

/-- `LegacyService._filter_by_license` (simple path, as used for
annotations and intercell): each row carries a single resource in its
attribution column and is kept iff that resource is enabled. -/
def _filter_by_license_simple (license : String) (rows : List LRow)
    (ctrl : LicenseOracle) : List LRow :=
  if license = "ignore" || rows.isEmpty then rows
  else rows.filter (fun r => ctrl.enables r.res)

/-- The stringification `_check_args` applies to a boolean checked
value (`str(val).lower()`); other scalars are compared as they are. -/
def checked_scalar (x : PyScalar) : PyScalar :=
  match x with
  | .b bb => .s (lowerStr (if bb then "True" else "False"))
  | y => y

/-- The scalars `_check_args` actually compares against a closed
vocabulary: the first element when the value is a list, all elements of
a set, the scalar itself otherwise; a scalar boolean is stringified. -/
def checked_scalars : PyVal → List PyScalar
  | vlist (x :: _) => to_set (scal (checked_scalar x))
  | vlist [] => []
  | vset l => l
  | scal x => to_set (scal (checked_scalar x))

/-- Whether one argument entry makes `_check_args` report a problem
(the amended reading of the invalid-argument condition): an unknown
argument name always does; a known name with a nonempty closed
vocabulary and a truthy value does iff one of its checked scalars is
out of vocabulary. -/
def amended_invalid (ref : List (String × RefVocab)) (k : String) (v : PyVal) :
    Bool :=
  match lookupL ref k with
  | none => true
  | some none => false
  | some (some vocab) =>
    !vocab.isEmpty && v.truthy && (checked_scalars v).any (fun u => !(vocab.contains u))

/-- All scalars of an argument value, bools stringified — the claim's
reading, in which every element of a supplied collection counts. -/
def spec_value_scalars (v : PyVal) : List PyScalar :=
  (to_set v).map checked_scalar

/-- The invalid-argument condition exactly as the claim states it: some
argument name is unknown, or some element of a closed-vocabulary
argument's value is outside the vocabulary. -/
def C1_claim_invalid (args : Args) (qt : String) : Bool :=
  let ref := (check_args_ref qt).getD []
  args.any (fun p =>
    match lookupL ref p.1 with
    | none => true
    | some none => false
    | some (some vocab) =>
      (spec_value_scalars p.2).any (fun u => !(vocab.contains u)))

/-- A license oracle exhibiting the composite-resource behaviour: the
composite resource `CompositeX` is itself license-enabled (composite
licenses enable at every tier) and aggregates the enabled component
`B`. -/
def ctrlX : LicenseOracle :=
  { enables := fun r => r = "CompositeX" || r = "B",
    lname := fun r => if r = "CompositeX" then "Composite" else "Free",
    secondary := fun r => if r = "CompositeX" then ["B"] else [] }

/-- A row attributed to the composite resource only: its component `B`
is enabled at the tier but does not occur in the row. -/
def C8row0 : LRow :=
  { set_sources := ["CompositeX"], res := "CompositeX", pfx := pnone }

theorem filter_isEmpty_eq_not_any {α : Type} (q : α → Bool) (l : List α) :
    (l.filter q).isEmpty = !(l.any q) := by
  induction l with
  | nil => rfl
  | cons x xs ih =>
    by_cases hx : q x <;> simp [List.filter, List.any, hx, ih]

theorem filterMap_isEmpty_eq_not_any {α β : Type} (f : α → Option β) (l : List α) :
    (l.filterMap f).isEmpty = !(l.any (fun x => (f x).isSome)) := by
  induction l with
  | nil => rfl
  | cons x xs ih =>
    cases hx : f x <;> simp [List.filterMap_cons, hx, ih]

theorem aget_map_setkey (args : Args) (k : String) (v : PyVal) (k2 : String)
    (h : ¬ k2 = k) :
    aget (args.map (fun p => if p.1 = k then (k, v) else p)) k2 = aget args k2 := by
  induction args with
  | nil => rfl
  | cons p rest ih =>
    by_cases hp : p.1 = k
    · have hk : ¬ k = k2 := fun hh => h hh.symm
      simp [aget, hp, hk, ih]
    · by_cases hp2 : p.1 = k2 <;> simp [aget, hp, hp2, h, ih]

theorem aget_append_single_ne (args : Args) (k : String) (v : PyVal) (k2 : String)
    (h : ¬ k2 = k) :
    aget (args ++ [(k, v)]) k2 = aget args k2 := by
  induction args with
  | nil =>
    simp [aget]
    exact fun hh => h hh.symm
  | cons p rest ih =>
    by_cases hp2 : p.1 = k2 <;> simp [aget, hp2, ih]

theorem aget_aset_ne (args : Args) (k : String) (v : PyVal) (k2 : String)
    (h : ¬ k2 = k) : aget (aset args k v) k2 = aget args k2 := by
  unfold aset
  by_cases hc : args.any (fun p => p.1 = k) <;>
    simp only [hc, if_true, if_false, Bool.false_eq_true, ite_true, ite_false]
  · exact aget_map_setkey args k v k2 h
  · exact aget_append_single_ne args k v k2 h

theorem aget_array_args (args : Args) (qt : String) (k : String) :
    aget (array_args args qt) k
      = if k ∈ array_args_of qt
        then (aget args k).map (fun v => vlist (ensure_array v))
        else aget args k := by
  induction args with
  | nil => by_cases hc : k ∈ array_args_of qt <;> simp [array_args, aget, hc]
  | cons p rest ih =>
    by_cases hp : p.1 = k
    · subst hp
      by_cases hc : p.1 ∈ array_args_of qt <;>
        simp [array_args, aget, List.contains, List.elem_eq_mem, hc]
    · by_cases hc : k ∈ array_args_of qt <;>
        by_cases hcp : p.1 ∈ array_args_of qt <;>
        simp [array_args, aget, List.contains, List.elem_eq_mem, hp, hcp, hc] <;>
        simpa [array_args, List.contains, List.elem_eq_mem, hc] using ih

theorem aget_none_of_no_key (L : Args) (k : String)
    (h : ∀ p ∈ L, ¬ p.1 = k) : aget L k = none := by
  induction L with
  | nil => rfl
  | cons p rest ih =>
    have hp := h p (by simp)
    simp [aget, hp]
    exact ih (fun q hq => h q (by simp [hq]))

theorem aget_filter_map_nodup (L : Args) (k : String) (f : PyVal → PyVal)
    (h : (L.map Prod.fst).Nodup) :
    aget ((L.filter (fun p => !(p.2 = pnone))).map (fun p => (p.1, f p.2))) k
      = (aget L k).bind (fun v => if v = pnone then none else some (f v)) := by
  induction L with
  | nil => rfl
  | cons p rest ih =>
    have hrest : (rest.map Prod.fst).Nodup := (List.nodup_cons.mp h).2
    have hni : p.1 ∉ rest.map Prod.fst := (List.nodup_cons.mp h).1
    by_cases hp : p.1 = k
    · subst hp
      by_cases hv : p.2 = pnone
      · have : aget rest p.1 = none := by
          apply aget_none_of_no_key
          intro q hq hqk
          exact hni (by simpa [← hqk] using List.mem_map_of_mem Prod.fst hq)
        simp [List.filter_cons, hv, aget, ih hrest, this]
      · simp [List.filter_cons, hv, aget]
    · by_cases hv : p.2 = pnone <;>
        simp [List.filter_cons, hv, aget, hp, ih hrest]

theorem aget_clean_args (L : Args) (k : String) (hk : ¬ k = "format")
    (h : (L.map Prod.fst).Nodup) :
    aget (clean_args L) k
      = (aget L k).bind (fun v => if v = pnone then none else some (maybe_bool v)) := by
  unfold clean_args
  rw [aget_aset_ne _ _ _ _ hk, aget_filter_map_nodup L k maybe_bool h]

/-- C3: for every column and value with no pre-set operator, `_where_op`
chooses an array operator (`in` with `any_(array(val))` for a scalar,
`&&` array overlap for a collection) iff the column is array-typed; for
non-array columns it chooses `IS`/`NOT` for boolean values, `=` for any
other scalar, and `=` against `any_(array(val))` (membership) for a
collection; and the inference depends only on the column's array-ness,
never on its name (hence never on the argument name). -/
theorem C3_where_op_structural (col : ColumnDef) (v : PyVal) :
    ((((_where_op col v none).1 = "in" ∨ (_where_op col v none).1 = "&&"))
        ↔ _isarray col = true)
    ∧ (_isarray col = true → v.is_simple = true →
        _where_op col v none = ("in", SqlVal.anyArray v))
    ∧ (_isarray col = true → v.is_simple = false →
        _where_op col v none = ("&&", SqlVal.plain v))
    ∧ (_isarray col = false → v = pbool true →
        _where_op col v none = ("IS", SqlVal.plain v))
    ∧ (_isarray col = false → v = pbool false →
        _where_op col v none = ("NOT", SqlVal.plain v))
    ∧ (_isarray col = false → v.is_simple = true →
        ¬ v = pbool true → ¬ v = pbool false →
        _where_op col v none = ("=", SqlVal.plain v))
    ∧ (_isarray col = false → v.is_simple = false →
        _where_op col v none = ("=", SqlVal.anyArray v))
    ∧ (∀ col2 : ColumnDef, _isarray col2 = _isarray col →
        _where_op col2 v none = _where_op col v none) := by
  refine ⟨?_, ?_, ?_, ?_, ?_, ?_, ?_, ?_⟩
  · by_cases ha : _isarray col
    · by_cases hs : v.is_simple <;> simp [_where_op, ha, hs]
    · by_cases h1 : v = pbool true
      · simp [_where_op, ha, h1]
      · by_cases h2 : v = pbool false
        · simp [_where_op, ha, h1, h2, pbool]
        · by_cases hs : v.is_simple <;> simp [_where_op, ha, h1, h2, hs]
  · intro ha hs; simp [_where_op, ha, hs]
  · intro ha hs; simp [_where_op, ha, hs]
  · intro ha h1; simp [_where_op, ha, h1]
  · intro ha h2
    subst h2
    simp [_where_op, ha, pbool]
  · intro ha hs h1 h2; simp [_where_op, ha, hs, h1, h2]
  · intro ha hs
    have h1 : ¬ v = pbool true := by
      intro hh; subst hh; simp [is_simple, pbool] at hs
    have h2 : ¬ v = pbool false := by
      intro hh; subst hh; simp [is_simple, pbool] at hs
    simp [_where_op, ha, hs, h1, h2]
  · intro col2 h
    unfold _where_op
    rw [h]

/-- Witness for C3: concrete evaluations through the theorem — the
array-typed `sources` column with a scalar value compiles to the
array-contains operator. -/
theorem C3_where_op_structural_witness :
    _where_op ⟨"sources", ColKind.carray⟩ (pstr "SIGNOR") none
      = ("in", SqlVal.anyArray (pstr "SIGNOR")) :=
  (C3_where_op_structural ⟨"sources", ColKind.carray⟩ (pstr "SIGNOR")).2.1 rfl rfl

/-- C9 counterexample: a singleton list holding a comma-joined string is
unwrapped but its element is never split, so `_ensure_array(['a,b'])`
is `['a,b']`, not the `['a','b']` that the same string passed directly
produces. -/
theorem C9_counterexample :
    ensure_array (vlist [.s "a,b"]) = [.s "a,b"]
    ∧ ensure_array (pstr "a,b") = [.s "a", .s "b"]
    ∧ ¬ ([PyScalar.s "a,b"] = [PyScalar.s "a", PyScalar.s "b"]) := by
  refine ⟨by decide, by decide, by decide⟩

/-- C9 amended: for array-declared arguments, a comma-joined scalar
string is split on commas; a singleton list is unwrapped to its element
without splitting it; lists of any other length pass through in their
original order; and `_array_args` applies exactly this coercion to the
declared array arguments. -/
theorem C9_ensure_array_amended :
    (∀ str : String, ensure_array (pstr str) = (splitOnCh ',' str).map PyScalar.s)
    ∧ (∀ str : String, ensure_array (vlist [.s str]) = [.s str])
    ∧ (∀ l : List PyScalar, ¬ l.length = 1 → ensure_array (vlist l) = l)
    ∧ (∀ (args : Args) (qt : String) (k : String), k ∈ array_args_of qt →
        aget (array_args args qt) k
          = (aget args k).map (fun v => vlist (ensure_array v))) := by
  refine ⟨?_, ?_, ?_, ?_⟩
  · intro str
    simp [ensure_array, is_list_like, pstr]
  · intro str
    rfl
  · intro l hl
    cases l with
    | nil => rfl
    | cons x xs =>
      cases xs with
      | nil => simp at hl
      | cons y ys => rfl
  · intro args qt k hk
    rw [aget_array_args, if_pos hk]

/-- Witness for C9 amended: concrete instantiations of its clauses. -/
theorem C9_ensure_array_amended_witness :
    ensure_array (vlist [.s "a", .s "b"]) = [.s "a", .s "b"]
    ∧ aget (array_args [("resources", pstr "x,y")] "interactions") "resources"
        = some (vlist [.s "x", .s "y"]) := by
  constructor
  · exact C9_ensure_array_amended.2.2.1 [.s "a", .s "b"] (by decide)
  · rw [C9_ensure_array_amended.2.2.2 [("resources", pstr "x,y")] "interactions"
      "resources" (by decide)]
    decide

/-- C5: the per-entity-type parameter map is mutated by requests — a
single `_select` call with a `fields` argument adds the requested field
to the stored `select_default` set of the configuration, so the
configuration after the call differs from the one before
(`cols = param.get('select_default', set())` aliases the stored set and
`cols.update(...)` mutates it in place). -/
theorem C5_select_mutates_query_param :
    ((_select select_default_init [("fields", vlist [PyScalar.s "references"])]
        "interactions").2).interactions
      = select_default_init.interactions ++ ["references"]
    ∧ ¬ ((_select select_default_init [("fields", vlist [PyScalar.s "references"])]
        "interactions").2 = select_default_init) := by
  refine ⟨by decide, by decide⟩

theorem ne_pnone_of_truthy (v : PyVal) (h : v.truthy = true) : ¬ v = pnone := by
  intro hh
  subst hh
  simp [truthy, pnone] at h

theorem interactions_locals_keys_nodup (j : InteractionsInput) :
    ((interactions_locals j).map Prod.fst).Nodup := by
  show (["resources", "partners", "sources", "targets", "fields", "limit",
    "format", "source_target", "organisms", "datasets", "dorothea_levels",
    "dorothea_methods", "types", "directed", "signed", "loops",
    "entity_types"] : List String).Nodup
  decide

theorem aget_interactions_args (j : InteractionsInput) (k : String)
    (hk : ¬ k = "format") (hmem : k ∈ array_args_of "interactions") :
    aget (interactions_args j) k
      = ((aget (interactions_locals j) k).bind
          (fun v => if v = pnone then none else some (maybe_bool v))).map
          (fun v => vlist (ensure_array v)) := by
  unfold interactions_args
  rw [aget_array_args, if_pos hmem,
    aget_clean_args _ _ hk (interactions_locals_keys_nodup j)]

/-- C6 counterexample: a request supplying only `resources` (no
`datasets`, no `types`) is still restricted to the default `omnipath`
dataset, contradicting the claim that the default is assumed exactly
when neither resources nor datasets nor types are supplied; and a
request selecting the `dorothea` dataset without explicit
`dorothea_levels` gets no default level subset at all. -/
theorem C6_counterexample :
    aget (interactions_args { resources := vlist [PyScalar.s "SIGNOR"] }) "datasets"
      = some (vlist [PyScalar.s "omnipath"])
    ∧ ¬ (some (vlist [PyScalar.s "omnipath"]) = (none : Option PyVal))
    ∧ aget (interactions_args { datasets := vlist [PyScalar.s "dorothea"] })
        "dorothea_levels" = none := by
  refine ⟨by decide, by decide, by decide⟩

/-- C6 amended: the `omnipath` default dataset is assumed exactly when
both `datasets` and `types` are unsupplied (falsy), regardless of
`resources` — supplying only resources does not prevent the default —
and `dorothea_levels` passes through the normalisation unchanged, with
no default level subset ever injected. -/
theorem C6_interactions_defaults_amended (inp : InteractionsInput) :
    (aget (interactions_args inp) "datasets"
      = (if inp.types.truthy then
           (if inp.datasets = pnone then none
            else some (vlist (ensure_array (maybe_bool inp.datasets))))
         else if inp.datasets.truthy then
           some (vlist (ensure_array (maybe_bool inp.datasets)))
         else some (vlist [PyScalar.s "omnipath"])))
    ∧ (aget (interactions_args inp) "dorothea_levels"
      = (if inp.dorothea_levels = pnone then none
         else some (vlist (ensure_array (maybe_bool inp.dorothea_levels)))))
    ∧ (∀ r : PyVal,
        aget (interactions_args { inp with resources := r }) "datasets"
          = aget (interactions_args inp) "datasets") := by
  have hda : ∀ j : InteractionsInput,
      aget (interactions_locals j) "datasets"
        = some (if j.types.truthy then j.datasets
            else if j.datasets.truthy then j.datasets
            else vset [.s "omnipath"]) := fun _ => rfl
  have hdl : ∀ j : InteractionsInput,
      aget (interactions_locals j) "dorothea_levels"
        = some j.dorothea_levels := fun _ => rfl
  have hmain : ∀ j : InteractionsInput,
      aget (interactions_args j) "datasets"
        = (if j.types.truthy then
             (if j.datasets = pnone then none
              else some (vlist (ensure_array (maybe_bool j.datasets))))
           else if j.datasets.truthy then
             some (vlist (ensure_array (maybe_bool j.datasets)))
           else some (vlist [PyScalar.s "omnipath"])) := by
    intro j
    rw [aget_interactions_args j "datasets" (by decide) (by decide), hda j]
    by_cases ht : j.types.truthy
    · by_cases hd : j.datasets = pnone <;> simp [ht, hd]
    · by_cases hdt : j.datasets.truthy
      · simp [ht, hdt, ne_pnone_of_truthy j.datasets hdt]
      · rw [show (if j.types.truthy then j.datasets
            else if j.datasets.truthy then j.datasets
            else vset [.s "omnipath"]) = vset [.s "omnipath"] from by
          simp [ht, hdt]]
        rw [if_neg ht, if_neg hdt]
        decide
  refine ⟨hmain inp, ?_, ?_⟩
  · rw [aget_interactions_args inp "dorothea_levels" (by decide) (by decide),
      hdl inp]
    by_cases hd : inp.dorothea_levels = pnone <;> simp [hd]
  · intro r
    rw [hmain inp, hmain { inp with resources := r }]

/-- C10: when a closed-vocabulary argument is supplied as a list, the
check inspects only the first element — the reported problems are
invariant under the tail; a list whose (stringified) first element is
in the vocabulary raises nothing, whatever the rest is; and the whole
list, unvalidated tail included, reaches the compiled WHERE clause
(shown through `_query` for the `types` argument of interactions). -/
theorem C10_first_element_only :
    (∀ (ref : List (String × RefVocab)) (k : String) (x : PyScalar)
        (xs ys : List PyScalar),
        check_entry ref k (vlist (x :: xs)) = check_entry ref k (vlist (x :: ys)))
    ∧ (∀ (ref : List (String × RefVocab)) (k : String) (vocab : List PyScalar)
        (x : PyScalar) (xs : List PyScalar),
        lookupL ref k = some (some vocab) →
        vocab.contains (checked_scalar x) = true →
        check_entry ref k (vlist (x :: xs)) = none)
    ∧ (∀ rest : List PyScalar,
        (_check_args [("types", vlist (.s "post_translational" :: rest))]
          "interactions").1 = none)
    ∧ (∀ rest : List PyScalar,
        ((_query select_default_init
            [("types", vlist (.s "post_translational" :: rest))]
            "interactions" []).1).1
          = some { select := ["source", "target", "is_directed",
                    "is_stimulation", "is_inhibition", "consensus_direction",
                    "consensus_stimulation", "consensus_inhibition"],
                   whereClauses := [SqlExpr.orE [SqlExpr.colOp "type" "="
                     (SqlVal.anyArray (vlist (.s "post_translational" :: rest)))]],
                   limit := none }) := by
  refine ⟨?_, ?_, ?_, ?_⟩
  · intro ref k x xs ys
    cases hr : lookupL ref k with
    | none => simp [check_entry, hr]
    | some o =>
      cases o with
      | none => simp [check_entry, hr]
      | some vocab => simp [check_entry, hr, PyVal.truthy]
  · intro ref k vocab x xs hr hx
    have hne : vocab.isEmpty = false := by
      cases vocab with
      | nil => simp [List.contains] at hx
      | cons a l => rfl
    cases x with
    | s str =>
      simp [check_entry, hr, hne, PyVal.truthy, checked_scalar, to_set,
        to_list, unknowns_of, filter_isEmpty_eq_not_any]
      simp [checked_scalar, List.contains] at hx
      exact hx
    | i n =>
      simp [check_entry, hr, hne, PyVal.truthy, checked_scalar, to_set,
        to_list, unknowns_of, filter_isEmpty_eq_not_any]
      simp [checked_scalar, List.contains] at hx
      exact hx
    | b bb =>
      simp [check_entry, hr, hne, PyVal.truthy, checked_scalar, pstr, to_set,
        to_list, unknowns_of, filter_isEmpty_eq_not_any]
      simp [checked_scalar, List.contains] at hx
      exact hx
    | null =>
      simp [check_entry, hr, hne, PyVal.truthy, checked_scalar, to_set,
        to_list, unknowns_of, filter_isEmpty_eq_not_any]
  · intro rest
    rfl
  · intro rest
    rfl

/-- Witness for C10: a `datasets` list whose first element is valid and
whose second is garbage passes the per-entry check. -/
theorem C10_first_element_only_witness :
    check_entry args_reference_interactions "datasets"
      (vlist [PyScalar.s "omnipath", PyScalar.s "nonsense"]) = none :=
  C10_first_element_only.2.1 args_reference_interactions "datasets"
    (["omnipath", "dorothea", "collectri", "tf_target", "tf_mirna",
      "lncrna_mrna", "kinaseextra", "ligrecextra", "pathwayextra",
      "mirnatarget", "small_molecule"].map PyScalar.s)
    (PyScalar.s "omnipath") [PyScalar.s "nonsense"] (by decide) (by decide)

theorem isSome_ite_mem {B : Type} (c : Prop) [Decidable c] (m : B) :
    (if c then (none : Option B) else some m).isSome = !decide c := by
  by_cases h : c <;> simp [h]

theorem isSome_unknowns_ite (k : String) (vocab l : List PyScalar) :
    (if unknowns_of vocab l = [] then (none : Option String)
     else some (unknown_values_msg k (unknowns_of vocab l))).isSome
    = l.any (fun u => !(vocab.contains u)) := by
  by_cases h : unknowns_of vocab l = []
  · rw [if_pos h]
    unfold unknowns_of at h
    rw [List.filter_eq_nil_iff] at h
    simp at h ⊢
    exact h
  · rw [if_neg h]
    have hany : l.any (fun u => !(vocab.contains u)) = true := by
      cases ha : l.any (fun u => !(vocab.contains u)) with
      | false =>
        exfalso
        apply h
        unfold unknowns_of
        rw [List.filter_eq_nil_iff]
        simp at ha ⊢
        exact ha
      | true => rfl
    rw [hany]
    rfl

theorem check_entry_isSome_eq (ref : List (String × RefVocab)) (k : String)
    (v : PyVal) :
    (check_entry ref k v).isSome = amended_invalid ref k v := by
  cases hr : lookupL ref k with
  | none => simp [check_entry, amended_invalid, hr]
  | some o =>
    cases o with
    | none => simp [check_entry, amended_invalid, hr]
    | some vocab =>
      by_cases he : vocab.isEmpty
      · simp [check_entry, amended_invalid, hr, he]
      · by_cases ht : v.truthy
        · rcases v with x | l | l
          · cases x <;>
              simp [check_entry, amended_invalid, hr, he, ht, checked_scalars,
                checked_scalar, to_set, to_list, pstr, unknowns_of,
                isSome_ite_mem, filter_isEmpty_eq_not_any]
          · cases l with
            | nil => simp [PyVal.truthy] at ht
            | cons a as =>
              cases a <;>
                simp [check_entry, amended_invalid, hr, he, ht,
                  checked_scalars, checked_scalar, to_set, to_list, pstr,
                  unknowns_of, isSome_ite_mem, filter_isEmpty_eq_not_any]
          · simp [check_entry, amended_invalid, hr, he, ht, checked_scalars,
              to_set, to_list, unknowns_of, isSome_ite_mem,
              isSome_unknowns_ite, filter_isEmpty_eq_not_any]
            by_cases hall : ∀ x ∈ l, x ∈ vocab
            · have h2 : (l.any fun u => !decide (u ∈ vocab)) = false := by
                simp
                exact hall
              simp [h2]
              exact hall
            · have h2 : (l.any fun u => !decide (u ∈ vocab)) = true := by
                simp
                push_neg at hall
                exact hall
              simp [hall, h2]
        · simp [check_entry, amended_invalid, hr, he, ht]

theorem check_args_fst_isSome (args : Args) (qt : String) :
    ((_check_args args qt).1).isSome
      = args.any (fun p =>
          amended_invalid ((check_args_ref qt).getD []) p.1 p.2) := by
  have hfe : (fun p0 : String × PyVal =>
        (check_entry ((check_args_ref qt).getD []) p0.1 p0.2).isSome)
      = (fun p0 : String × PyVal =>
          amended_invalid ((check_args_ref qt).getD []) p0.1 p0.2) :=
    funext (fun p0 => check_entry_isSome_eq _ p0.1 p0.2)
  simp only [_check_args]
  by_cases h : (args.filterMap
      (fun p => check_entry ((check_args_ref qt).getD []) p.1 p.2)).isEmpty
  · rw [if_pos h]
    rw [filterMap_isEmpty_eq_not_any, hfe] at h
    simp at h
    simp
    exact h
  · rw [if_neg h]
    rw [filterMap_isEmpty_eq_not_any, hfe] at h
    simp at h
    simp
    exact h

/-- C1 counterexample: under the claim's reading, the argument map
`datasets=['omnipath','nonsense']` contains a value outside the closed
`datasets` vocabulary, so the pipeline should return an error and build
no query — but `_check_args` only inspects the first list element, so
no error is produced and a query is built and would be executed. -/
theorem C1_counterexample :
    C1_claim_invalid [("datasets", vlist [PyScalar.s "omnipath",
      PyScalar.s "nonsense"])] "interactions" = true
    ∧ (_check_args [("datasets", vlist [PyScalar.s "omnipath",
        PyScalar.s "nonsense"])] "interactions").1 = none
    ∧ ((_query select_default_init [("datasets", vlist [PyScalar.s "omnipath",
        PyScalar.s "nonsense"])] "interactions" []).1).1.isSome = true := by
  refine ⟨by decide, by decide, by decide⟩

/-- C1 amended: for every query type with an argument reference and
every argument map, the pipeline returns an error string iff some entry
has an unknown name or an out-of-vocabulary *checked* value — the first
element when the value is a list (later elements are not validated),
every element of a set, the scalar itself otherwise, bools stringified,
falsy values exempt — and a query object is built iff no error string
is returned. -/
theorem C1_invalid_argument_amended (st : SelectState) (args : Args)
    (qt : String) (extra : List (Option SqlExpr))
    (h : (check_args_ref qt).isSome = true) :
    ((((_query st args qt extra).1).2).isSome
      = args.any (fun p =>
          amended_invalid ((check_args_ref qt).getD []) p.1 p.2))
    ∧ ((((_query st args qt extra).1).1).isSome
      = !args.any (fun p =>
          amended_invalid ((check_args_ref qt).getD []) p.1 p.2)) := by
  rcases hq : _check_args args qt with ⟨err, args2⟩
  have h1 : ((_check_args args qt).1).isSome
      = args.any (fun p =>
          amended_invalid ((check_args_ref qt).getD []) p.1 p.2) :=
    check_args_fst_isSome args qt
  rw [hq] at h1
  cases err with
  | none =>
    constructor
    · simp [_query, hq, ← h1]
    · simp [_query, hq, ← h1]
  | some msg =>
    constructor
    · simp [_query, hq, ← h1]
    · simp [_query, hq, ← h1]

/-- Witness for C1 amended: the error/query status of a concrete valid
request agrees with the amended condition. -/
theorem C1_invalid_argument_amended_witness :
    (((_query select_default_init [("datasets", vlist [PyScalar.s "dorothea"])]
        "interactions" []).1).2).isSome
      = List.any [("datasets", vlist [PyScalar.s "dorothea"])] (fun p =>
          amended_invalid ((check_args_ref "interactions").getD []) p.1 p.2) :=
  (C1_invalid_argument_amended select_default_init
    [("datasets", vlist [PyScalar.s "dorothea"])] "interactions" []
    (by decide)).1

/-- C2 counterexample: the claim's example `enzymes={P06239},
substrates={O14543}` (with no group operator supplied, hence the
signature default `enzyme_substrate='OR'`) compiles the two per-side
predicates joined with OR, not with the AND the claim's example
states. -/
theorem C2_counterexample :
    (_where_partners "enzsub"
        (enzsub_args { enzymes := pstr "P06239", substrates := pstr "O14543" })).1
      = some (SqlExpr.orE [
          SqlExpr.orE [SqlExpr.colOp "enzyme" "="
              (SqlVal.anyArray (vlist [.s "P06239"])),
            SqlExpr.colOp "enzyme_genesymbol" "="
              (SqlVal.anyArray (vlist [.s "P06239"]))],
          SqlExpr.orE [SqlExpr.colOp "substrate" "="
              (SqlVal.anyArray (vlist [.s "O14543"])),
            SqlExpr.colOp "substrate_genesymbol" "="
              (SqlVal.anyArray (vlist [.s "O14543"]))]])
    ∧ ∀ (l : List SqlExpr), ¬ SqlExpr.orE l = SqlExpr.andE l := by
  refine ⟨rfl, fun l h => SqlExpr.noConfusion h⟩

/-- C2 amended: supplying only one side yields the OR of that side's id
and genesymbol column predicates; supplying both sides combines the two
per-side predicates with AND when the group operator argument
upper-cases to `AND` and with OR when it upper-cases to `OR`; the
self-loop exclusion `enzyme != substrate` is emitted unless `loops` is
truthy; and the claim's example compiles to the stated conjunction only
when `enzyme_substrate='AND'` is supplied (the signature default being
`'OR'`), AND'd with the loop exclusion. -/
theorem C2_partners_amended :
    (∀ vs : List PyScalar, ¬ vs = [] →
      (_where_partners "enzsub" [("enzymes", vlist vs)]).1
        = some (SqlExpr.orE
            [SqlExpr.colOp "enzyme" "=" (SqlVal.anyArray (vlist vs)),
             SqlExpr.colOp "enzyme_genesymbol" "=" (SqlVal.anyArray (vlist vs))]))
    ∧ (∀ (es ss : List PyScalar) (op : String), ¬ es = [] → ¬ ss = [] →
        upperStr op = "AND" →
        (_where_partners "enzsub" [("enzymes", vlist es),
            ("substrates", vlist ss), ("enzyme_substrate", pstr op)]).1
          = some (SqlExpr.andE [
              SqlExpr.orE [SqlExpr.colOp "enzyme" "=" (SqlVal.anyArray (vlist es)),
                SqlExpr.colOp "enzyme_genesymbol" "=" (SqlVal.anyArray (vlist es))],
              SqlExpr.orE [SqlExpr.colOp "substrate" "=" (SqlVal.anyArray (vlist ss)),
                SqlExpr.colOp "substrate_genesymbol" "=" (SqlVal.anyArray (vlist ss))]]))
    ∧ (∀ (es ss : List PyScalar) (op : String), ¬ es = [] → ¬ ss = [] →
        upperStr op = "OR" →
        (_where_partners "enzsub" [("enzymes", vlist es),
            ("substrates", vlist ss), ("enzyme_substrate", pstr op)]).1
          = some (SqlExpr.orE [
              SqlExpr.orE [SqlExpr.colOp "enzyme" "=" (SqlVal.anyArray (vlist es)),
                SqlExpr.colOp "enzyme_genesymbol" "=" (SqlVal.anyArray (vlist es))],
              SqlExpr.orE [SqlExpr.colOp "substrate" "=" (SqlVal.anyArray (vlist ss)),
                SqlExpr.colOp "substrate_genesymbol" "=" (SqlVal.anyArray (vlist ss))]]))
    ∧ (∀ args : Args, (agetD args "loops" (pbool false)).truthy = false →
        _where_loops "enzsub" args
          = some (SqlExpr.colOp "enzyme" "!=" (SqlVal.colRef "substrate")))
    ∧ (∀ args : Args, (agetD args "loops" (pbool false)).truthy = true →
        _where_loops "enzsub" args = none)
    ∧ ((enzsub_pipeline select_default_init
          { enzymes := pstr "P06239", substrates := pstr "O14543",
            enzyme_substrate := pstr "AND" }).1.1
        = some { select := ["enzyme", "substrate", "residue_type",
                  "residue_offset", "modification"],
                 whereClauses :=
                   [SqlExpr.orE [SqlExpr.colOp "ncbi_tax_id" "="
                      (SqlVal.anyArray (vlist [.i 9606]))],
                    SqlExpr.andE [
                      SqlExpr.andE [
                        SqlExpr.orE [SqlExpr.colOp "enzyme" "="
                            (SqlVal.anyArray (vlist [.s "P06239"])),
                          SqlExpr.colOp "enzyme_genesymbol" "="
                            (SqlVal.anyArray (vlist [.s "P06239"]))],
                        SqlExpr.orE [SqlExpr.colOp "substrate" "="
                            (SqlVal.anyArray (vlist [.s "O14543"])),
                          SqlExpr.colOp "substrate_genesymbol" "="
                            (SqlVal.anyArray (vlist [.s "O14543"]))]],
                      SqlExpr.colOp "enzyme" "!=" (SqlVal.colRef "substrate")]],
                 limit := none }) := by
  refine ⟨?_, ?_, ?_, ?_, ?_, ?_⟩
  · intro vs hvs
    cases vs with
    | nil => exact absurd rfl hvs
    | cons x xs => rfl
  · intro es ss op he hs hop
    cases es with
    | nil => exact absurd rfl he
    | cons e es0 =>
      cases ss with
      | nil => exact absurd rfl hs
      | cons t ss0 =>
        rw [show (_where_partners "enzsub" [("enzymes", vlist (e :: es0)),
            ("substrates", vlist (t :: ss0)), ("enzyme_substrate", pstr op)]).1
          = some ((if upperStr op = "OR" then SqlExpr.orE else SqlExpr.andE) [
              SqlExpr.orE [SqlExpr.colOp "enzyme" "="
                  (SqlVal.anyArray (vlist (e :: es0))),
                SqlExpr.colOp "enzyme_genesymbol" "="
                  (SqlVal.anyArray (vlist (e :: es0)))],
              SqlExpr.orE [SqlExpr.colOp "substrate" "="
                  (SqlVal.anyArray (vlist (t :: ss0))),
                SqlExpr.colOp "substrate_genesymbol" "="
                  (SqlVal.anyArray (vlist (t :: ss0)))]]) from rfl]
        rw [hop]
        rw [if_neg (by decide)]
  · intro es ss op he hs hop
    cases es with
    | nil => exact absurd rfl he
    | cons e es0 =>
      cases ss with
      | nil => exact absurd rfl hs
      | cons t ss0 =>
        rw [show (_where_partners "enzsub" [("enzymes", vlist (e :: es0)),
            ("substrates", vlist (t :: ss0)), ("enzyme_substrate", pstr op)]).1
          = some ((if upperStr op = "OR" then SqlExpr.orE else SqlExpr.andE) [
              SqlExpr.orE [SqlExpr.colOp "enzyme" "="
                  (SqlVal.anyArray (vlist (e :: es0))),
                SqlExpr.colOp "enzyme_genesymbol" "="
                  (SqlVal.anyArray (vlist (e :: es0)))],
              SqlExpr.orE [SqlExpr.colOp "substrate" "="
                  (SqlVal.anyArray (vlist (t :: ss0))),
                SqlExpr.colOp "substrate_genesymbol" "="
                  (SqlVal.anyArray (vlist (t :: ss0)))]]) from rfl]
        rw [hop]
        rw [if_pos (by decide)]
  · intro args h
    simp [_where_loops, h]
    rfl
  · intro args h
    simp [_where_loops, h]
  · rfl

/-- Witness for C2 amended: concrete instantiations — one side only,
and both sides with the AND operator. -/
theorem C2_partners_amended_witness :
    (_where_partners "enzsub" [("enzymes", vlist [PyScalar.s "P06241"])]).1
      = some (SqlExpr.orE
          [SqlExpr.colOp "enzyme" "=" (SqlVal.anyArray (vlist [PyScalar.s "P06241"])),
           SqlExpr.colOp "enzyme_genesymbol" "="
             (SqlVal.anyArray (vlist [PyScalar.s "P06241"]))])
    ∧ _where_loops "enzsub" [("loops", pbool true)] = none :=
  ⟨C2_partners_amended.1 [PyScalar.s "P06241"] (by decide),
   C2_partners_amended.2.2.2.2.1 [("loops", pbool true)] (by decide)⟩

/-- C4 counterexample: requesting `datasets=['dorothea']` together with
`dorothea_levels=['A','B']` compiles a WHERE that still contains the
plain `dorothea` boolean-column check — AND'd with the
`dorothea_level` array-overlap predicate — not the override predicate
in place of it (the flag clause is not the empty conjunction the claim
predicts). -/
theorem C4_counterexample :
    ((interactions_pipeline select_default_init
        { datasets := vlist [.s "dorothea"],
          dorothea_levels := vlist [.s "A", .s "B"] }).1.1
      = some { select := ["source", "target", "is_directed", "is_stimulation",
                "is_inhibition", "consensus_direction", "consensus_stimulation",
                "consensus_inhibition"],
               whereClauses :=
                 [SqlExpr.orE [SqlExpr.colOp "ncbi_tax_id_source" "="
                     (SqlVal.anyArray (vlist [.i 9606])),
                   SqlExpr.colOp "ncbi_tax_id_target" "="
                     (SqlVal.anyArray (vlist [.i 9606]))],
                  SqlExpr.orE [SqlExpr.colOp "dorothea_level" "&&"
                     (SqlVal.plain (vlist [.s "A", .s "B"]))],
                  SqlExpr.orE [SqlExpr.colOp "is_directed" "IS"
                     (SqlVal.plain (pbool true))],
                  SqlExpr.andE [
                    SqlExpr.andE [SqlExpr.orE [SqlExpr.boolCol "dorothea"]],
                    SqlExpr.colOp "source" "!=" (SqlVal.colRef "target")]],
               limit := none })
    ∧ ¬ SqlExpr.andE [SqlExpr.orE [SqlExpr.boolCol "dorothea"]]
        = SqlExpr.andE [] := by
  refine ⟨rfl, fun h => List.noConfusion (SqlExpr.andE.inj h)⟩

/-- C4 amended: requesting a dataset flag alone compiles its clause to
the disjunction of the corresponding boolean columns; supplying
`dorothea_levels` does not change the boolean-flag clause at all (no
override), and any `dorothea_levels` argument additionally contributes
its own array-overlap clause on the `dorothea_level` column to the
WHERE list — the level predicate is AND'd in addition to, not in place
of, the boolean check. -/
theorem C4_where_bool_amended :
    (_where_bool "interactions" [("datasets",
        vlist [.s "collectri", .s "omnipath"])]
      = SqlExpr.andE [SqlExpr.orE [SqlExpr.boolCol "omnipath",
          SqlExpr.boolCol "collectri"]])
    ∧ (∀ (args : Args) (v : PyVal),
        _where_bool "interactions" (aset args "dorothea_levels" v)
          = _where_bool "interactions" args)
    ∧ (∀ (pre post : Args) (v : PyVal),
        _where (pre ++ ("dorothea_levels", v) :: post) "interactions"
          = _where pre "interactions"
            ++ where_arg_expr (columns_of "interactions") "dorothea_level"
                 (parse_arg v)
              :: _where post "interactions") := by
  refine ⟨rfl, ?_, ?_⟩
  · intro args v
    have h1 : agetD (aset args "dorothea_levels" v) "datasets" (vset [])
        = agetD args "datasets" (vset []) := by
      unfold agetD
      rw [aget_aset_ne _ _ _ _ (by decide)]
    have h2 : agetD (aset args "dorothea_levels" v) "dorothea_methods" (vset [])
        = agetD args "dorothea_methods" (vset []) := by
      unfold agetD
      rw [aget_aset_ne _ _ _ _ (by decide)]
    have h3 : agetD (aset args "dorothea_levels" v) "signed" (vset [])
        = agetD args "signed" (vset []) := by
      unfold agetD
      rw [aget_aset_ne _ _ _ _ (by decide)]
    simp only [_where_bool, where_bool_args, List.filterMap_cons,
      List.filterMap_nil]
    rw [h1, h2, h3]
  · intro pre post v
    unfold _where
    rw [List.filterMap_append]
    rfl

theorem with_last_go_eq_markLast (l : List PyVal) :
    ∀ x : PyVal, with_last_go x l = markLast (x :: l) := by
  induction l with
  | nil => intro x; rfl
  | cons y rest ih =>
    intro x
    simp [with_last_go, markLast]
    exact ih y

/-- C7 counterexample: a finite stream whose only element is `None`
yields nothing from `with_last` — no element and no last-element marker
— instead of the claimed single marked element. -/
theorem C7_counterexample :
    with_last [pnone] = []
    ∧ markLast [pnone] = [(pnone, true)]
    ∧ ¬ ([] : List (PyVal × Bool)) = [(pnone, true)] := by
  refine ⟨rfl, rfl, by decide⟩

theorem bracketBal_append (a b : String) :
    bracketBal (a ++ b) = bracketBal a + bracketBal b := by
  simp [bracketBal, String.data_append]

theorem bracketBal_joinSepS (rows : List String)
    (h : ∀ r ∈ rows, bracketBal r = 0) :
    bracketBal (joinSepS ",\n" rows) = 0 := by
  induction rows with
  | nil => rfl
  | cons x rest ih =>
    have hx : bracketBal x = 0 := h x (by simp)
    cases rest with
    | nil => simpa [joinSepS] using hx
    | cons y ys =>
      have hrec : bracketBal (joinSepS ",\n" (y :: ys)) = 0 :=
        ih (fun r hr => h r (by simp [hr]))
      simp [joinSepS] at hrec ⊢
      rw [bracketBal_append, bracketBal_append, hx, hrec]
      decide

/-- C7 amended: for every finite stream whose first element is not
`None` — in particular any stream of formatted lines — `with_last`
yields the elements in order with the marker true exactly on the final
element (a stream starting with `None` yields nothing, per the
counterexample); and the JSON wrapping around it produces
`"[\n" ++ lines joined by ",\n" ++ "\n]"` (exactly `"[\n]"` for the
empty stream), which has balanced square brackets whenever each row
does. -/
theorem C7_with_last_amended :
    (∀ (x : PyVal) (l : List PyVal), ¬ x = pnone →
        with_last (x :: l) = markLast (x :: l))
    ∧ (∀ l : List String, with_last (l.map pstr) = markLast (l.map pstr))
    ∧ (∀ (T : Type) (l : List T), (markLast l).map Prod.fst = l)
    ∧ (∀ (T : Type) (l : List T), (markLast l).map Prod.snd
        = List.replicate (l.length - 1) false
          ++ (if l.length = 0 then [] else [true]))
    ∧ (∀ rows : List String, json_response rows
        = "[\n" ++ joinSepS ",\n" rows ++ (if rows.isEmpty then "" else "\n") ++ "]")
    ∧ (∀ rows : List String, (∀ r ∈ rows, bracketBal r = 0) →
        bracketBal (json_response rows) = 0) := by
  have hfst : ∀ (T : Type) (l : List T), (markLast l).map Prod.fst = l := by
    intro T l
    induction l with
    | nil => rfl
    | cons x xs ih =>
      cases xs with
      | nil => rfl
      | cons y ys =>
        simp [markLast]
        simpa using ih
  have hsnd : ∀ (T : Type) (l : List T), (markLast l).map Prod.snd
      = List.replicate (l.length - 1) false
        ++ (if l.length = 0 then [] else [true]) := by
    intro T l
    induction l with
    | nil => rfl
    | cons x xs ih =>
      cases xs with
      | nil => rfl
      | cons y ys =>
        simp [markLast, List.replicate_succ] at ih ⊢
        simpa using ih
  have hw : ∀ (x : PyVal) (l : List PyVal), ¬ x = pnone →
      with_last (x :: l) = markLast (x :: l) := by
    intro x l hx
    simp [with_last, hx]
    exact with_last_go_eq_markLast l x
  have hwstr : ∀ l : List String, with_last (l.map pstr) = markLast (l.map pstr) := by
    intro l
    cases l with
    | nil => rfl
    | cons x xs =>
      exact hw (pstr x) (xs.map pstr) (by simp [pstr, pnone])
  have hbody : ∀ (rest : List String) (x : String),
      joinAll (((markLast (pstr x :: rest.map pstr)).map
          (fun p => legacy_postformat_json (strOfRow p.1) p.2)) ++ ["]"])
        = joinSepS ",\n" (x :: rest) ++ "\n" ++ "]" := by
    intro rest
    induction rest with
    | nil =>
      intro x
      simp [markLast, joinAll, joinSepS, legacy_postformat_json, strOfRow, pstr,
        String.append_assoc]
    | cons y ys ih =>
      intro x
      simp [markLast, joinAll, joinSepS, legacy_postformat_json, strOfRow, pstr] at ih ⊢
      rw [ih y]
      simp [String.append_assoc]
  have hjson : ∀ rows : List String, json_response rows
      = "[\n" ++ joinSepS ",\n" rows ++ (if rows.isEmpty then "" else "\n") ++ "]" := by
    intro rows
    cases rows with
    | nil => decide
    | cons x rest =>
      unfold json_response
      rw [hwstr (x :: rest)]
      have hb := hbody rest x
      simp [joinAll] at hb ⊢
      rw [hb]
      simp [String.append_assoc]
  refine ⟨hw, hwstr, hfst, hsnd, hjson, ?_⟩
  intro rows h
  rw [hjson rows]
  rw [bracketBal_append, bracketBal_append, bracketBal_append,
    bracketBal_joinSepS rows h]
  cases rows with
  | nil => decide
  | cons x rest =>
    show bracketBal "[\n" + 0 + bracketBal "\n" + bracketBal "]" = 0
    decide

/-- Witness for C7 amended: concrete instantiations — a two-element
stream is marked on its last element only, and a one-row JSON response
with balanced rows is balanced. -/
theorem C7_with_last_amended_witness :
    with_last [pstr "a", pstr "b"] = [(pstr "a", false), (pstr "b", true)]
    ∧ bracketBal (json_response ["[1,2]"]) = 0 := by
  constructor
  · exact (C7_with_last_amended.1 (pstr "a") [pstr "b"] (by decide)).trans rfl
  · exact C7_with_last_amended.2.2.2.2.2 ["[1,2]"] (by decide)

theorem mem_sortedInsert (x y : String) (l : List String) :
    y ∈ sortedInsert x l ↔ y = x ∨ y ∈ l := by
  induction l with
  | nil => simp [sortedInsert]
  | cons a as ih =>
    by_cases h : strLe x a <;> simp [sortedInsert, h, ih] <;> tauto

theorem mem_pysorted (y : String) (l : List String) :
    y ∈ pysorted l ↔ y ∈ l := by
  induction l with
  | nil => simp [pysorted]
  | cons a as ih => simp [pysorted, mem_sortedInsert, ih]

theorem sortedInsert_ne_nil (x : String) (l : List String) :
    ¬ sortedInsert x l = [] := by
  cases l with
  | nil => simp [sortedInsert]
  | cons a as =>
    by_cases h : strLe x a <;> simp [sortedInsert, h]

theorem pysorted_eq_nil_iff (l : List String) : pysorted l = [] ↔ l = [] := by
  cases l with
  | nil => simp [pysorted]
  | cons a as => simp [pysorted, sortedInsert_ne_nil]

theorem joinSep_eq_empty_iff (l : List String) (h : ∀ x ∈ l, ¬ x = "") :
    joinSep ';' l = "" ↔ l = [] := by
  cases l with
  | nil => simp [joinSep]
  | cons a as =>
    cases as with
    | nil => simp [joinSep, h a (by simp)]
    | cons b bs =>
      simp [joinSep]
      intro hh
      have hd := congrArg String.data hh
      simp [String.data_append, String.singleton] at hd

theorem filter_resources_eq (ctrl : LicenseOracle) (res : List String) :
    filter_resources ctrl res
      = res.filter (fun r => ctrl.enables r
          && !(decide (ctrl.lname r = "Composite")
               && ((ctrl.secondary r).filter
                     (fun x => (res.filter ctrl.enables).contains x)).isEmpty)) := by
  unfold filter_resources
  rw [List.filter_filter]
  apply List.filter_congr
  intro r hr
  by_cases he : ctrl.enables r
  · simp only [he, Bool.and_true, Bool.true_and]
    congr 1
    by_cases hc : ctrl.lname r = "Composite" <;>
      simp [List.mem_filter, hr, he, hc, List.contains, List.elem_eq_mem,
        filter_isEmpty_eq_not_any]
    by_cases hall : ∀ a ∈ ctrl.secondary r, a ∈ res → ctrl.enables a = false
    · have hany : ((ctrl.secondary r).any
          (fun x => decide (x ∈ res) && ctrl.enables x)) = false := by
        simp
        intro a ha hres
        have := hall a ha hres
        simp [this]
      simp [hany]
      exact hall
    · have hany : ((ctrl.secondary r).any
          (fun x => decide (x ∈ res) && ctrl.enables x)) = true := by
        push_neg at hall
        obtain ⟨a, ha, hres, hen⟩ := hall
        simp
        exact ⟨a, ha, hres, by simpa using hen⟩
      simp [hall, hany]
  · simp [he]

/-- C8 counterexample: at a non-`ignore` tier, a row attributed only to
an enabled composite resource whose components are absent from the row
is dropped entirely, although the claim — replace the column with
exactly the enabled subset, drop only rows whose enabled subset is
empty — predicts the row survives with its (nonempty) enabled
subset. -/
theorem C8_counterexample :
    _filter_by_license "academic" [C8row0] ctrlX true = []
    ∧ C8row0.set_sources.filter ctrlX.enables = ["CompositeX"]
    ∧ ¬ ([] : List LRow)
        = [{ C8row0 with
             res := joinSep ';' (pysorted
               (C8row0.set_sources.filter ctrlX.enables)) }] := by
  refine ⟨by decide, by decide, by decide⟩

/-- C8 amended: the sentinel `ignore` tier passes the stream through
untouched; the kept resources of a row are the enabled subset of its
resources minus the composite resources none of whose component
resources are among the row's enabled subset; at any other tier the
output is exactly the rows whose kept set is nonempty, in order, each
with the attribution column replaced by the sorted `;`-join of its kept
set and the prefix-encoded elements filtered to those whose prefix
(text before the first `:`) is kept; membership in the new prefix
column is exactly membership in the old one with a kept prefix. -/
theorem C8_license_filter_amended :
    (∀ (rows : List LRow) (ctrl : LicenseOracle) (u : Bool),
        _filter_by_license "ignore" rows ctrl u = rows)
    ∧ (∀ (ctrl : LicenseOracle) (res : List String),
        filter_resources ctrl res
          = res.filter (fun r => ctrl.enables r
              && !(decide (ctrl.lname r = "Composite")
                   && ((ctrl.secondary r).filter
                         (fun x => (res.filter ctrl.enables).contains x)).isEmpty)))
    ∧ (∀ (license : String) (rows : List LRow) (ctrl : LicenseOracle) (u : Bool),
        ¬ license = "ignore" →
        (∀ r ∈ rows, ¬ "" ∈ r.set_sources) →
        _filter_by_license license rows ctrl u
          = (rows.filter
              (fun r => !(filter_resources ctrl r.set_sources).isEmpty)).map
              (row_transform ctrl u))
    ∧ (∀ (kept : List String) (str e : String),
        e ∈ pysorted ((splitOnCh ';' str).filter
            (fun x => kept.contains (prefixPart x)))
          ↔ (e ∈ splitOnCh ';' str ∧ kept.contains (prefixPart e) = true)) := by
  refine ⟨?_, filter_resources_eq, ?_, ?_⟩
  · intro rows ctrl u
    simp [_filter_by_license]
  · intro license rows ctrl u h1 h2
    unfold _filter_by_license
    cases rows with
    | nil => simp
    | cons r rs =>
      rw [if_neg (by simp [h1])]
      rw [List.filter_map]
      refine congrArg (fun l => l.map (row_transform ctrl u)) (List.filter_congr ?_)
      intro a ha
      have hne : ∀ x ∈ pysorted (filter_resources ctrl a.set_sources), ¬ x = "" := by
        intro x hx
        rw [mem_pysorted] at hx
        have hxs : x ∈ a.set_sources := by
          rw [filter_resources_eq] at hx
          exact (List.mem_filter.mp hx).1
        intro hxe
        subst hxe
        exact (h2 a ha) hxs
      have hiff : joinSep ';' (pysorted (filter_resources ctrl a.set_sources)) = ""
          ↔ filter_resources ctrl a.set_sources = [] := by
        rw [joinSep_eq_empty_iff _ hne, pysorted_eq_nil_iff]
      by_cases hk : filter_resources ctrl a.set_sources = []
      · simp [Function.comp, row_transform, hk, pysorted, joinSep]
      · have hj : ¬ joinSep ';' (pysorted (filter_resources ctrl a.set_sources)) = "" :=
          fun hh => hk (hiff.mp hh)
        simp [Function.comp, row_transform, hj, hk]
  · intro kept str e
    rw [mem_pysorted]
    simp [List.mem_filter]

/-- Witness for C8 amended: a concrete two-resource row at the
`academic` tier through the amended equation. -/
theorem C8_license_filter_amended_witness :
    _filter_by_license "academic"
        [{ set_sources := ["B", "A"], res := "A;B", pfx := pstr "A:1;C:3" }]
        { enables := fun r => r = "A", lname := fun _ => "Free",
          secondary := fun _ => [] } true
      = (([{ set_sources := ["B", "A"], res := "A;B",
             pfx := pstr "A:1;C:3" }] : List LRow).filter
          (fun r => !(filter_resources
            { enables := fun r => r = "A", lname := fun _ => "Free",
              secondary := fun _ => [] } r.set_sources).isEmpty)).map
          (row_transform
            { enables := fun r => r = "A", lname := fun _ => "Free",
              secondary := fun _ => [] } true) :=
  C8_license_filter_amended.2.2.1 "academic"
    [{ set_sources := ["B", "A"], res := "A;B", pfx := pstr "A:1;C:3" }]
    { enables := fun r => r = "A", lname := fun _ => "Free",
      secondary := fun _ => [] } true (by decide) (by decide)
